import Mathlib

/-!
# Scatter-gather DMA control logic (`src/dma/dma.c`)

A shallow embedding of `dma_rx_init`, `dma_transmit`, `dma_rx_intr_handler`
and `dma_tx_intr_handler`.  The repository's functions are translated statement by
statement.  The vendor driver they call (`XAxiDma_*`, `Xil_DCache*`) is not part
of the repository: its descriptor ring is modelled from the ring contract of
the specification, and every call that reaches hardware is recorded in an
event log, in program order.

Machine integers are natural numbers; the `uint32_t` arithmetic of the code
(`rx_pkt.size += recv_size`, `i * descriptor_buff_size`) wraps modulo `2 ^ 32`,
and so does the `UINTPTR` arithmetic: the target is a 32-bit processor.  A
descriptor pointer is the index of its slot in the ring.
-/

namespace Dma

/-! ## Vendor constants -/

/-- Modelled from the spec: the status every operation returns on success
(`XST_SUCCESS` of the vendor header, which is not in the repository). -/
def XST_SUCCESS : Int := 0

/-- Modelled from the spec: the generic failure status (`XST_FAILURE` of the
vendor header); `reserve` answers it when too few slots are free. -/
def XST_FAILURE : Int := 1

/-- Modelled from the spec: the status with which a ring primitive refuses
arguments that do not fit the ring (`XST_INVALID_PARAM` of the vendor header). -/
def XST_INVALID_PARAM : Int := 15

/-- Modelled from the spec: interrupt bit `COMPLETION` (vendor header value). -/
def XAXIDMA_IRQ_IOC_MASK : Nat := 0x00001000

/-- Modelled from the spec: interrupt bit `DELAY_TIMEOUT` (vendor header value). -/
def XAXIDMA_IRQ_DELAY_MASK : Nat := 0x00002000

/-- Modelled from the spec: interrupt bit `ERROR` (vendor header value). -/
def XAXIDMA_IRQ_ERROR_MASK : Nat := 0x00004000

/-- Modelled from the spec: all three interrupt bits (vendor header value). -/
def XAXIDMA_IRQ_ALL_MASK : Nat := 0x00007000

/-- Modelled from the spec: status flag `COMPLETE` of a descriptor (vendor
header value). -/
def XAXIDMA_BD_STS_COMPLETE_MASK : Nat := 0x80000000

/-- Modelled from the spec: status flag `START_OF_FRAME` of a receive
descriptor (vendor header value). -/
def XAXIDMA_BD_STS_RXSOF_MASK : Nat := 0x08000000

/-- Modelled from the spec: status flag `END_OF_FRAME` of a receive descriptor
(vendor header value). -/
def XAXIDMA_BD_STS_RXEOF_MASK : Nat := 0x04000000

/-- Modelled from the spec: the flag bits of the status word; the bits below
them hold the transferred byte count (vendor header value). -/
def XAXIDMA_BD_STS_ALL_MASK : Nat := 0xFC000000

/-- Modelled from the spec: control flag `START_OF_FRAME` of a transmit
descriptor (vendor header value). -/
def XAXIDMA_BD_CTRL_TXSOF_MASK : Nat := 0x08000000

/-- Modelled from the spec: control flag `END_OF_FRAME` of a transmit
descriptor (vendor header value). -/
def XAXIDMA_BD_CTRL_TXEOF_MASK : Nat := 0x04000000

/-- Modelled from the spec: the control flag bits of a descriptor (vendor
header value). -/
def XAXIDMA_BD_CTRL_ALL_MASK : Nat := 0x0C000000

/-- Modelled from the spec: the `max_n` that asks `drain` for every completed
descriptor (vendor header value). -/
def XAXIDMA_ALL_BDS : Nat := 0x0FFFFFFF

/-- `#define DMA_TX_BD_CNT 1` (`dma.h`). -/
def DMA_TX_BD_CNT : Nat := 1

/-- The null descriptor pointer.  Descriptor pointers are slot indices; the
code never reads a descriptor through a null pointer. -/
def NULL : Nat := 0

/-- The C operator `~` on a `uint32_t`. -/
def u32_not (x : Nat) : Nat := 0xFFFFFFFF ^^^ (x % 2 ^ 32)

/-! ## Data model -/

/-- Modelled from the spec: a Buffer Descriptor (`XAxiDma_Bd` of the vendor
driver): buffer address, requested length, control flags, and the status
word the hardware writes (flag bits above, transferred byte count below). -/
structure XAxiDma_Bd where
  BufAddr : Nat
  Length : Nat
  Ctrl : Nat
  Sts : Nat
deriving DecidableEq, Repr

/-- Modelled from the spec: a Descriptor Ring (`XAxiDma_BdRing` of the vendor
driver).  `FreeCnt`, `PreCnt`, `HwCnt`, `PostCnt` count the free, reserved,
posted and completed slots; each group is a run of consecutive slots starting
at its head.  `IrqStatus` is the pending-interrupt register of the channel. -/
structure XAxiDma_BdRing where
  MaxTransferLen : Nat
  AllCnt : Nat
  FreeCnt : Nat
  PreCnt : Nat
  HwCnt : Nat
  PostCnt : Nat
  FreeHead : Nat
  PreHead : Nat
  HwHead : Nat
  PostHead : Nat
  Bds : List XAxiDma_Bd
  IrqStatus : Nat
deriving DecidableEq, Repr

/-- The two channels of the controller. -/
inductive Chan where
  | rx
  | tx
deriving DecidableEq, Repr

/-- One call that leaves the repository: a vendor primitive, a cache
maintenance operation, or the application callback.  Ring primitives carry
their count argument, the descriptor pointer and the status they answered. -/
inductive Event where
  | AckIrq (c : Chan) (mask : Nat)
  | Reset
  | ResetIsDone (answer : Bool)
  | IntDisable (c : Chan) (mask : Nat)
  | IntEnable (c : Chan) (mask : Nat)
  | BdRingCreate (c : Chan) (BdCount : Nat) (status : Int)
  | BdRingClone (c : Chan) (status : Int)
  | BdRingStart (c : Chan) (status : Int)
  | BdRingAlloc (c : Chan) (NumBd : Nat) (BdSet : Nat) (status : Int)
  | BdRingUnAlloc (c : Chan) (NumBd : Nat) (BdSet : Nat) (status : Int)
  | BdRingToHw (c : Chan) (NumBd : Nat) (BdSet : Nat) (status : Int)
  | BdRingFromHw (c : Chan) (BdLimit : Nat) (BdCount : Nat) (BdSet : Nat)
  | BdRingFree (c : Chan) (NumBd : Nat) (BdSet : Nat) (status : Int)
  | DCacheFlushRange (adr : Nat) (len : Nat)
  | DCacheInvalidateRange (adr : Nat) (len : Nat)
  | callback (buffer : Nat) (size : Nat)
deriving DecidableEq, Repr

/-- The fields of `dma_dev_t` (`dma.h`) that the modelled functions read. -/
structure dma_dev_t where
  descriptor_buff_size : Nat
  descriptors_count : Nat
  rx_buff_addr : Nat
  tx_buff_addr : Nat
deriving DecidableEq, Repr

/-- The engine `dma_t` (`dma.h`) together with what it points to: the two
rings of `instance`, the bytes of the staging region at `params.tx_buff_addr`,
and the log of the calls that left the repository. -/
structure dma_t where
  params : dma_dev_t
  RxBdRing : XAxiDma_BdRing
  TxBdRing : XAxiDma_BdRing
  tx_buff : List Nat
  log : List Event
deriving DecidableEq, Repr

/-- Modelled from the spec: what the vendor layer answers where the spec names
a failure without its cause: the status of `XAxiDma_BdSetBufAddr`, the status
of `XAxiDma_BdRingToHw` (`commit`) once its slots are the reserved ones, and
the statuses of `XAxiDma_BdRingCreate`, `XAxiDma_BdRingClone` and
`XAxiDma_BdRingStart` during initialisation. -/
structure hw_t where
  BdSetBufAddr : Int
  BdRingToHw : Int
  BdRingCreate : Int
  BdRingClone : Int
  BdRingStart : Int
deriving DecidableEq, Repr

/-- The local `struct dma_pkt_t` of `dma_rx_intr_handler`. -/
structure dma_pkt_t where
  buffer : Nat
  size : Nat
  completed : Nat
deriving DecidableEq, Repr

/-! ## Vendor primitives -/

/-- The descriptor in slot `bd` of the ring. -/
def XAxiDma_BdRing.slot (ring : XAxiDma_BdRing) (bd : Nat) : XAxiDma_Bd :=
  ring.Bds.getD bd ⟨0, 0, 0, 0⟩

/-- Modelled from the spec: `XAxiDma_BdRingNext`, the slot after `bd` in the
"logical circular list", "wrapping at `slot_count`". -/
def XAxiDma_BdRingNext (ring : XAxiDma_BdRing) (bd : Nat) : Nat :=
  if bd + 1 ≥ ring.AllCnt then 0 else bd + 1

/-- Modelled from the spec: the slot `n` places after `bd`, by `n` steps of
`XAxiDma_BdRingNext`. -/
def XAxiDma_BdRingSeekahead (ring : XAxiDma_BdRing) : Nat → Nat → Nat
  | 0, bd => bd
  | n + 1, bd => XAxiDma_BdRingSeekahead ring n (XAxiDma_BdRingNext ring bd)

/-- Modelled from the spec: `XAxiDma_BdRingGetIrq`, the pending interrupt bits
of the ring. -/
def XAxiDma_BdRingGetIrq (ring : XAxiDma_BdRing) : Nat :=
  ring.IrqStatus &&& XAXIDMA_IRQ_ALL_MASK

/-- Modelled from the spec: `XAxiDma_BdRingAckIrq`, which "clears the hardware
latch" of the acknowledged bits. -/
def XAxiDma_BdRingAckIrq (ring : XAxiDma_BdRing) (mask : Nat) : XAxiDma_BdRing :=
  { ring with IrqStatus := ring.IrqStatus &&& u32_not mask }

/-- Modelled from the spec: `XAxiDma_BdGetBufAddr`, the `buffer_address`. -/
def XAxiDma_BdGetBufAddr (bd : XAxiDma_Bd) : Nat := bd.BufAddr

/-- Modelled from the spec: `XAxiDma_BdGetActualLength`, the "actual transferred
(hardware-set) byte count": the status word under the length mask. -/
def XAxiDma_BdGetActualLength (bd : XAxiDma_Bd) (LengthMask : Nat) : Nat :=
  bd.Sts &&& LengthMask

/-- Modelled from the spec: `XAxiDma_BdGetSts`, the `status_flags`. -/
def XAxiDma_BdGetSts (bd : XAxiDma_Bd) : Nat :=
  bd.Sts &&& XAXIDMA_BD_STS_ALL_MASK

/-- Modelled from the spec: `XAxiDma_BdRingAlloc`, `reserve(n)`: "claims `n`
contiguous free slots for software to populate; fails if fewer than `n` are
free".  Answers the status, the ring and the descriptor pointer, which is the
first reserved slot on success and the caller's `BdSet` as it was on failure. -/
def XAxiDma_BdRingAlloc (ring : XAxiDma_BdRing) (NumBd : Nat) (BdSet : Nat) :
    Int × XAxiDma_BdRing × Nat :=
  if NumBd = 0 then (XST_INVALID_PARAM, ring, BdSet)
  else if ring.FreeCnt < NumBd then (XST_FAILURE, ring, BdSet)
  else
    (XST_SUCCESS,
     { ring with
        FreeHead := XAxiDma_BdRingSeekahead ring NumBd ring.FreeHead
        FreeCnt := ring.FreeCnt - NumBd
        PreCnt := ring.PreCnt + NumBd },
     ring.FreeHead)

/-- Modelled from the spec: `XAxiDma_BdRingUnAlloc`, `release_unreserved(n,
first)`: "reverses a failed `reserve` so slots return to the free pool
without being posted".  Only the most recently reserved slots can be given
back: `first` must lie `n` places before the free head. -/
def XAxiDma_BdRingUnAlloc (ring : XAxiDma_BdRing) (NumBd : Nat) (BdSet : Nat) :
    Int × XAxiDma_BdRing :=
  if NumBd = 0 then (XST_INVALID_PARAM, ring)
  else if ring.PreCnt < NumBd then (XST_FAILURE, ring)
  else if XAxiDma_BdRingSeekahead ring NumBd BdSet ≠ ring.FreeHead then (XST_FAILURE, ring)
  else
    (XST_SUCCESS,
     { ring with
        FreeHead := BdSet
        FreeCnt := ring.FreeCnt + NumBd
        PreCnt := ring.PreCnt - NumBd })

/-- Modelled from the spec: `XAxiDma_BdRingToHw`, `commit(n, first)`: "hands
`n` reserved, now-populated slots to hardware ownership (posts them)".  Slots
that are not the reserved ones are refused; otherwise the vendor layer's
answer `hw` decides, and a failure leaves the ring as it was. -/
def XAxiDma_BdRingToHw (hw : Int) (ring : XAxiDma_BdRing) (NumBd : Nat) (BdSet : Nat) :
    Int × XAxiDma_BdRing :=
  if NumBd = 0 then (XST_SUCCESS, ring)
  else if ring.PreCnt < NumBd ∨ ring.PreHead ≠ BdSet then (XST_INVALID_PARAM, ring)
  else if hw ≠ XST_SUCCESS then (hw, ring)
  else
    (XST_SUCCESS,
     { ring with
        PreHead := XAxiDma_BdRingSeekahead ring NumBd ring.PreHead
        PreCnt := ring.PreCnt - NumBd
        HwCnt := ring.HwCnt + NumBd })

/-- Modelled from the spec: how many of the next `n` slots from `bd` the
hardware has completed, "in ring order", stopping at the first that is not. -/
def XAxiDma_BdRingCompleted (ring : XAxiDma_BdRing) : Nat → Nat → Nat
  | 0, _ => 0
  | n + 1, bd =>
    if XAxiDma_BdGetSts (ring.slot bd) &&& XAXIDMA_BD_STS_COMPLETE_MASK ≠ 0 then
      XAxiDma_BdRingCompleted ring n (XAxiDma_BdRingNext ring bd) + 1
    else 0

/-- Modelled from the spec: `XAxiDma_BdRingFromHw`, `drain(max_n)`: "reclaims
up to `max_n` hardware-completed slots back to software ownership, in ring
order; returns 0 if none are ready".  Answers the count, the ring and the
first drained slot. -/
def XAxiDma_BdRingFromHw (ring : XAxiDma_BdRing) (BdLimit : Nat) :
    Nat × XAxiDma_BdRing × Nat :=
  let BdCount := XAxiDma_BdRingCompleted ring (min ring.HwCnt BdLimit) ring.HwHead
  if BdCount = 0 then (0, ring, NULL)
  else
    (BdCount,
     { ring with
        HwHead := XAxiDma_BdRingSeekahead ring BdCount ring.HwHead
        HwCnt := ring.HwCnt - BdCount
        PostCnt := ring.PostCnt + BdCount },
     ring.HwHead)

/-- Modelled from the spec: `XAxiDma_BdRingFree`, `free(n, first)`: "returns
drained slots to the free pool".  Slots that are not the drained ones are
refused. -/
def XAxiDma_BdRingFree (ring : XAxiDma_BdRing) (NumBd : Nat) (BdSet : Nat) :
    Int × XAxiDma_BdRing :=
  if NumBd = 0 then (XST_SUCCESS, ring)
  else if ring.PostCnt < NumBd ∨ ring.PostHead ≠ BdSet then (XST_INVALID_PARAM, ring)
  else
    (XST_SUCCESS,
     { ring with
        PostHead := XAxiDma_BdRingSeekahead ring NumBd ring.PostHead
        PostCnt := ring.PostCnt - NumBd
        FreeCnt := ring.FreeCnt + NumBd })

/-- Modelled from the spec: `XAxiDma_BdSetBufAddr` on slot `bd`; the vendor
layer's answer `hw` decides whether the address is taken. -/
def XAxiDma_BdSetBufAddr (hw : Int) (ring : XAxiDma_BdRing) (bd : Nat) (Addr : Nat) :
    Int × XAxiDma_BdRing :=
  if hw ≠ XST_SUCCESS then (hw, ring)
  else (XST_SUCCESS, { ring with Bds := ring.Bds.set bd { ring.slot bd with BufAddr := Addr } })

/-- Modelled from the spec: `XAxiDma_BdSetLength` on slot `bd`: the length is
"bounded by a per-ring maximum transfer length"; an empty transfer is refused
as well. -/
def XAxiDma_BdSetLength (ring : XAxiDma_BdRing) (bd : Nat) (LenBytes : Nat)
    (LengthMask : Nat) : Int × XAxiDma_BdRing :=
  if LenBytes = 0 ∨ LenBytes > LengthMask then (XST_INVALID_PARAM, ring)
  else (XST_SUCCESS, { ring with Bds := ring.Bds.set bd { ring.slot bd with Length := LenBytes } })

/-- Modelled from the spec: `XAxiDma_BdSetCtrl` on slot `bd`, which stores the
`control_flags`. -/
def XAxiDma_BdSetCtrl (ring : XAxiDma_BdRing) (bd : Nat) (Data : Nat) : XAxiDma_BdRing :=
  { ring with
    Bds := ring.Bds.set bd { ring.slot bd with Ctrl := Data &&& XAXIDMA_BD_CTRL_ALL_MASK } }

/-- Modelled from the spec: `XAxiDma_BdRingCreate`, `create(memory_region,
alignment, slot_count)`: "carves `slot_count` fixed-size, alignment-padded
slots out of `memory_region`; fails if the region is too small or
misaligned" (the vendor layer's answer `hw`).  The new ring has every slot
free and its heads on the first slot. -/
def XAxiDma_BdRingCreate (hw : Int) (ring : XAxiDma_BdRing) (BdCount : Nat) :
    Int × XAxiDma_BdRing :=
  if hw ≠ XST_SUCCESS then (hw, ring)
  else
    (XST_SUCCESS,
     { ring with
        AllCnt := BdCount, FreeCnt := BdCount, PreCnt := 0, HwCnt := 0, PostCnt := 0
        FreeHead := 0, PreHead := 0, HwHead := 0, PostHead := 0
        Bds := List.replicate BdCount ⟨0, 0, 0, 0⟩ })

/-- Modelled from the spec: `XAxiDma_BdRingClone`, `initialize_all_slots(
template)`: "writes a zeroed/default descriptor pattern into every slot",
unless the vendor layer refuses (its answer `hw`). -/
def XAxiDma_BdRingClone (hw : Int) (ring : XAxiDma_BdRing) (template : XAxiDma_Bd) :
    Int × XAxiDma_BdRing :=
  if hw ≠ XST_SUCCESS then (hw, ring)
  else (XST_SUCCESS, { ring with Bds := List.replicate ring.AllCnt template })

/-- The C library's `memmove(dst, src, n)` on the bytes of the destination. -/
def memmove (dst : List Nat) (src : List Nat) (n : Nat) : List Nat :=
  src.take n ++ dst.drop n

/-- The slots visited by `n` steps of `XAxiDma_BdRingNext` from `bd`. -/
def XAxiDma_BdRingWalk (ring : XAxiDma_BdRing) : Nat → Nat → List Nat
  | 0, _ => []
  | n + 1, bd => bd :: XAxiDma_BdRingWalk ring n (XAxiDma_BdRingNext ring bd)

/-! ## The repository's functions (`src/dma/dma.c`) -/

/-- Append one event to the log. -/
def dma_t.emit (dma : dma_t) (e : Event) : dma_t :=
  { dma with log := dma.log ++ [e] }

/-- The provisioning loop of `dma_rx_init` (`dma.c`, lines 62-75): `n`
iterations from the index `i` and the slot `current_bd`.  The product
`i * descriptor_buff_size` is a `uint32_t`, and its sum with `rx_buff_ptr` is
a `UINTPTR`, which has 32 bits on the target: both wrap modulo `2 ^ 32`. -/
def rx_init_fill (hw : hw_t) (params : dma_dev_t) :
    Nat → Nat → Nat → XAxiDma_BdRing → Int × XAxiDma_BdRing
  | 0, _, _, rx_ring => (XST_SUCCESS, rx_ring)
  | n + 1, i, current_bd, rx_ring =>
    let offset := (params.rx_buff_addr + (i * params.descriptor_buff_size) % 2 ^ 32) % 2 ^ 32
    let a := XAxiDma_BdSetBufAddr hw.BdSetBufAddr rx_ring current_bd offset
    if a.1 ≠ XST_SUCCESS then a
    else
      let l := XAxiDma_BdSetLength a.2 current_bd params.descriptor_buff_size
        a.2.MaxTransferLen
      if l.1 ≠ XST_SUCCESS then l
      else rx_init_fill hw params n (i + 1) (XAxiDma_BdRingNext l.2 current_bd) l.2

/-- The second half of `dma_rx_init` (`dma.c`, lines 54-82): every free slot
is reserved, given its buffer and its length, and committed; then the
interrupts are enabled and the channel is started. -/
def rx_init_provision (hw : hw_t) (dma : dma_t) : Int × dma_t :=
  let free_bd_cnt := dma.RxBdRing.FreeCnt
  let a := XAxiDma_BdRingAlloc dma.RxBdRing free_bd_cnt NULL
  let pointer_bd := a.2.2
  let dma := ({ dma with RxBdRing := a.2.1 }).emit
    (.BdRingAlloc .rx free_bd_cnt pointer_bd a.1)
  if a.1 ≠ XST_SUCCESS then (a.1, dma)
  else
    let f := rx_init_fill hw dma.params free_bd_cnt 0 pointer_bd dma.RxBdRing
    let dma := { dma with RxBdRing := f.2 }
    if f.1 ≠ XST_SUCCESS then (f.1, dma)
    else
      let t := XAxiDma_BdRingToHw hw.BdRingToHw dma.RxBdRing free_bd_cnt pointer_bd
      let dma := ({ dma with RxBdRing := t.2 }).emit
        (.BdRingToHw .rx free_bd_cnt pointer_bd t.1)
      if t.1 ≠ XST_SUCCESS then (t.1, dma)
      else
        let dma := dma.emit (.IntEnable .rx XAXIDMA_IRQ_ALL_MASK)
        (hw.BdRingStart, dma.emit (.BdRingStart .rx hw.BdRingStart))

/-- `dma_rx_init` (`dma.c`, lines 35-83). -/
def dma_rx_init (hw : hw_t) (dma : dma_t) : Int × dma_t :=
  let dma := dma.emit (.IntDisable .rx XAXIDMA_IRQ_ALL_MASK)
  let c := XAxiDma_BdRingCreate hw.BdRingCreate dma.RxBdRing dma.params.descriptors_count
  let dma := ({ dma with RxBdRing := c.2 }).emit
    (.BdRingCreate .rx dma.params.descriptors_count c.1)
  if c.1 ≠ XST_SUCCESS then (c.1, dma)
  else
    let bd_template : XAxiDma_Bd := ⟨0, 0, 0, 0⟩
    let k := XAxiDma_BdRingClone hw.BdRingClone dma.RxBdRing bd_template
    let dma := ({ dma with RxBdRing := k.2 }).emit (.BdRingClone .rx k.1)
    if k.1 ≠ XST_SUCCESS then (k.1, dma)
    else rx_init_provision hw dma

/-- `dma_transmit` (`dma.c`, lines 156-188). -/
def dma_transmit (hw : hw_t) (dma : dma_t) (buffer : List Nat) (size : Nat) : Int × dma_t :=
  if size > dma.params.descriptor_buff_size then (-XST_FAILURE, dma)
  else
    let pointer_bd := NULL
    let r := XAxiDma_BdRingAlloc dma.TxBdRing DMA_TX_BD_CNT pointer_bd
    let status := r.1
    let pointer_bd := r.2.2
    let dma := ({ dma with TxBdRing := r.2.1 }).emit
      (.BdRingAlloc .tx DMA_TX_BD_CNT pointer_bd status)
    if status ≠ XST_SUCCESS then (status, dma)
    else
      let buff_addr := dma.params.tx_buff_addr
      let dma := { dma with tx_buff := memmove dma.tx_buff buffer size }
      let dma := dma.emit (.DCacheFlushRange buff_addr size)
      let r := XAxiDma_BdSetBufAddr hw.BdSetBufAddr dma.TxBdRing pointer_bd buff_addr
      let status := r.1
      let dma := { dma with TxBdRing := r.2 }
      if status ≠ XST_SUCCESS then (status, dma)
      else
        let r := XAxiDma_BdSetLength dma.TxBdRing pointer_bd size dma.TxBdRing.MaxTransferLen
        let status := r.1
        let dma := { dma with TxBdRing := r.2 }
        if status ≠ XST_SUCCESS then (status, dma)
        else
          let c := XAxiDma_BdSetCtrl dma.TxBdRing pointer_bd
            (XAXIDMA_BD_CTRL_TXSOF_MASK ||| XAXIDMA_BD_CTRL_TXEOF_MASK)
          let dma := { dma with TxBdRing := c }
          let r := XAxiDma_BdRingToHw hw.BdRingToHw dma.TxBdRing DMA_TX_BD_CNT pointer_bd
          let status := r.1
          let dma := ({ dma with TxBdRing := r.2 }).emit
            (.BdRingToHw .tx DMA_TX_BD_CNT pointer_bd status)
          if status ≠ XST_SUCCESS then
            let u := XAxiDma_BdRingUnAlloc dma.TxBdRing DMA_TX_BD_CNT pointer_bd
            let dma := ({ dma with TxBdRing := u.2 }).emit
              (.BdRingUnAlloc .tx DMA_TX_BD_CNT pointer_bd u.1)
            (status, dma)
          else (XST_SUCCESS, dma)

/-- The reset-confirmation loop of both handlers (`dma.c`, lines 207-213 and
286-292): `while (timeout) { if (XAxiDma_ResetIsDone(..)) break; timeout -= 1; }`.
`ResetIsDone i` is what the flag answers to poll number `i`; `polls` counts the
polls made so far. -/
def reset_wait (ResetIsDone : Nat → Bool) : Nat → Nat → dma_t → dma_t
  | 0, _, dma => dma
  | timeout + 1, polls, dma =>
    let dma := dma.emit (.ResetIsDone (ResetIsDone polls))
    if ResetIsDone polls then dma
    else reset_wait ResetIsDone timeout (polls + 1) dma

/-- The first half of the body of the reassembly loop of `dma_rx_intr_handler`
(`dma.c`, lines 233-248): the descriptor `current_bd` is read and accounted
for in `rx_pkt`. -/
def rx_account (current_bd : XAxiDma_Bd) (rx_pkt : dma_pkt_t) : dma_pkt_t :=
  let buff_addr := XAxiDma_BdGetBufAddr current_bd
  let recv_size := XAxiDma_BdGetActualLength current_bd (u32_not XAXIDMA_BD_STS_ALL_MASK)
  let status_reg := XAxiDma_BdGetSts current_bd
  if status_reg &&& XAXIDMA_BD_STS_COMPLETE_MASK ≠ 0 then
    let rx_pkt :=
      if status_reg &&& XAXIDMA_BD_STS_RXSOF_MASK ≠ 0 then
        { rx_pkt with buffer := buff_addr, size := recv_size }
      else
        { rx_pkt with size := (rx_pkt.size + recv_size) % 2 ^ 32 }
    if status_reg &&& XAXIDMA_BD_STS_RXEOF_MASK ≠ 0 then
      { rx_pkt with completed := 1 }
    else rx_pkt
  else rx_pkt

/-- The body of the reassembly loop of `dma_rx_intr_handler` (`dma.c`, lines
233-254) on the descriptor `current_bd`: the accounting, then the delivery
of a completed packet. -/
def rx_body (current_bd : XAxiDma_Bd) (rx_pkt : dma_pkt_t) (log : List Event) :
    dma_pkt_t × List Event :=
  let buff_addr := XAxiDma_BdGetBufAddr current_bd
  let rx_pkt := rx_account current_bd rx_pkt
  if rx_pkt.completed ≠ 0 then
    ({ rx_pkt with completed := 0 },
     log ++ [.DCacheInvalidateRange buff_addr rx_pkt.size,
             .callback rx_pkt.buffer rx_pkt.size])
  else (rx_pkt, log)

/-- The reassembly loop of `dma_rx_intr_handler` (`dma.c`, lines 231-257):
`n` iterations starting at the slot `current_bd`. -/
def rx_walk (rx_ring : XAxiDma_BdRing) : Nat → Nat → dma_pkt_t → List Event →
    dma_pkt_t × List Event
  | 0, _, rx_pkt, log => (rx_pkt, log)
  | n + 1, current_bd, rx_pkt, log =>
    let s := rx_body (rx_ring.slot current_bd) rx_pkt log
    rx_walk rx_ring n (XAxiDma_BdRingNext rx_ring current_bd) s.1 s.2

/-- The end of the drain branch of `dma_rx_intr_handler` (`dma.c`, lines
259-264): the drained slots are freed, as many slots as are then free are
reserved and committed, and the interrupts are enabled again. -/
def rx_reprovision (hw : hw_t) (dma : dma_t) (processed_bd : Nat) (pointer_bd : Nat) : dma_t :=
  let f := XAxiDma_BdRingFree dma.RxBdRing processed_bd pointer_bd
  let dma := ({ dma with RxBdRing := f.2 }).emit
    (.BdRingFree .rx processed_bd pointer_bd f.1)
  let free_cnt_bd := dma.RxBdRing.FreeCnt
  let a := XAxiDma_BdRingAlloc dma.RxBdRing free_cnt_bd pointer_bd
  let pointer_bd := a.2.2
  let dma := ({ dma with RxBdRing := a.2.1 }).emit
    (.BdRingAlloc .rx free_cnt_bd pointer_bd a.1)
  let t := XAxiDma_BdRingToHw hw.BdRingToHw dma.RxBdRing free_cnt_bd pointer_bd
  let dma := ({ dma with RxBdRing := t.2 }).emit
    (.BdRingToHw .rx free_cnt_bd pointer_bd t.1)
  dma.emit (.IntEnable .rx XAXIDMA_IRQ_ALL_MASK)

/-- The drain branch of `dma_rx_intr_handler` (`dma.c`, lines 218-264). -/
def rx_service (hw : hw_t) (dma : dma_t) : dma_t :=
  let r := XAxiDma_BdRingFromHw dma.RxBdRing XAXIDMA_ALL_BDS
  let processed_bd := r.1
  let pointer_bd := r.2.2
  let dma := ({ dma with RxBdRing := r.2.1 }).emit
    (.BdRingFromHw .rx XAXIDMA_ALL_BDS processed_bd pointer_bd)
  if processed_bd = 0 then dma
  else
    let dma := dma.emit (.IntDisable .rx XAXIDMA_IRQ_ALL_MASK)
    let rx_pkt : dma_pkt_t := { buffer := NULL, size := 0, completed := 0 }
    let w := rx_walk dma.RxBdRing processed_bd pointer_bd rx_pkt dma.log
    let dma := { dma with log := w.2 }
    rx_reprovision hw dma processed_bd pointer_bd

/-- The state in which `dma_rx_intr_handler` goes on after acknowledging the
pending interrupt bits (`dma.c`, line 205). -/
def rx_acked (dma : dma_t) : dma_t :=
  let irq := XAxiDma_BdRingGetIrq dma.RxBdRing
  ({ dma with RxBdRing := XAxiDma_BdRingAckIrq dma.RxBdRing irq }).emit (.AckIrq .rx irq)

/-- `dma_rx_intr_handler` (`dma.c`, lines 197-266). -/
def dma_rx_intr_handler (hw : hw_t) (ResetIsDone : Nat → Bool) (dma : dma_t) : dma_t :=
  let irq := XAxiDma_BdRingGetIrq dma.RxBdRing
  if irq &&& XAXIDMA_IRQ_ALL_MASK = 0 then dma
  else
    let dma := rx_acked dma
    if irq &&& XAXIDMA_IRQ_ERROR_MASK ≠ 0 then
      let timeout := 10000
      let dma := dma.emit .Reset
      reset_wait ResetIsDone timeout 0 dma
    else if irq &&& (XAXIDMA_IRQ_DELAY_MASK ||| XAXIDMA_IRQ_IOC_MASK) ≠ 0 then
      rx_service hw dma
    else dma

/-- The drain branch of `dma_tx_intr_handler` (`dma.c`, lines 296-303). -/
def tx_service (dma : dma_t) : dma_t :=
  let dma := dma.emit (.IntDisable .tx XAXIDMA_IRQ_ALL_MASK)
  let r := XAxiDma_BdRingFromHw dma.TxBdRing XAXIDMA_ALL_BDS
  let processed_bd := r.1
  let pointer_bd := r.2.2
  let dma := ({ dma with TxBdRing := r.2.1 }).emit
    (.BdRingFromHw .tx XAXIDMA_ALL_BDS processed_bd pointer_bd)
  let f := XAxiDma_BdRingFree dma.TxBdRing processed_bd pointer_bd
  let dma := ({ dma with TxBdRing := f.2 }).emit
    (.BdRingFree .tx processed_bd pointer_bd f.1)
  dma.emit (.IntEnable .tx XAXIDMA_IRQ_ALL_MASK)

/-- The state in which `dma_tx_intr_handler` goes on after acknowledging the
pending interrupt bits (`dma.c`, line 280). -/
def tx_acked (dma : dma_t) : dma_t :=
  let irq := XAxiDma_BdRingGetIrq dma.TxBdRing
  ({ dma with TxBdRing := XAxiDma_BdRingAckIrq dma.TxBdRing irq }).emit (.AckIrq .tx irq)

/-- `dma_tx_intr_handler` (`dma.c`, lines 275-305). -/
def dma_tx_intr_handler (ResetIsDone : Nat → Bool) (dma : dma_t) : dma_t :=
  let irq := XAxiDma_BdRingGetIrq dma.TxBdRing
  let dma := tx_acked dma
  if irq &&& XAXIDMA_IRQ_ALL_MASK = 0 then dma
  else
    let dma :=
      if irq &&& XAXIDMA_IRQ_ERROR_MASK ≠ 0 then
        let timeout := 10000
        let dma := dma.emit .Reset
        reset_wait ResetIsDone timeout 0 dma
      else dma
    if irq &&& (XAXIDMA_IRQ_DELAY_MASK ||| XAXIDMA_IRQ_IOC_MASK) ≠ 0 then
      tx_service dma
    else dma

/-! ## Vocabulary of the statements -/

/-- The descriptor carries the status flag `COMPLETE`, as the loop tests it. -/
def XAxiDma_Bd.COMPLETE (bd : XAxiDma_Bd) : Prop :=
  XAxiDma_BdGetSts bd &&& XAXIDMA_BD_STS_COMPLETE_MASK ≠ 0

/-- The descriptor carries the status flag `RXSOF`, as the loop tests it. -/
def XAxiDma_Bd.RXSOF (bd : XAxiDma_Bd) : Prop :=
  XAxiDma_BdGetSts bd &&& XAXIDMA_BD_STS_RXSOF_MASK ≠ 0

/-- The descriptor carries the status flag `RXEOF`, as the loop tests it. -/
def XAxiDma_Bd.RXEOF (bd : XAxiDma_Bd) : Prop :=
  XAxiDma_BdGetSts bd &&& XAXIDMA_BD_STS_RXEOF_MASK ≠ 0

instance (bd : XAxiDma_Bd) : Decidable bd.COMPLETE :=
  inferInstanceAs (Decidable (_ ≠ _))

instance (bd : XAxiDma_Bd) : Decidable bd.RXSOF :=
  inferInstanceAs (Decidable (_ ≠ _))

instance (bd : XAxiDma_Bd) : Decidable bd.RXEOF :=
  inferInstanceAs (Decidable (_ ≠ _))

/-- The actual length of a descriptor, as the loop reads it into `recv_size`. -/
def XAxiDma_Bd.ActualLength (bd : XAxiDma_Bd) : Nat :=
  XAxiDma_BdGetActualLength bd (u32_not XAXIDMA_BD_STS_ALL_MASK)

/-- The receive handler reaches its drain: the pending interrupt bits hold
`DELAY` or `IOC` and not `ERROR`. -/
def rx_drains (dma : dma_t) : Prop :=
  XAxiDma_BdRingGetIrq dma.RxBdRing &&& XAXIDMA_IRQ_ERROR_MASK = 0 ∧
  XAxiDma_BdRingGetIrq dma.RxBdRing &&&
    (XAXIDMA_IRQ_DELAY_MASK ||| XAXIDMA_IRQ_IOC_MASK) ≠ 0

instance (dma : dma_t) : Decidable (rx_drains dma) :=
  inferInstanceAs (Decidable (_ ∧ _))

/-- The batch that the drain of `dma_rx_intr_handler` (`dma.c`, line 219)
hands over: the drained descriptors, in ring order. -/
def rx_drained (dma : dma_t) : List XAxiDma_Bd :=
  let r := XAxiDma_BdRingFromHw (rx_acked dma).RxBdRing XAXIDMA_ALL_BDS
  (XAxiDma_BdRingWalk r.2.1 r.1 r.2.2).map r.2.1.slot

/-- A ring as `XAxiDma_BdRingCreate` makes it: every slot free, the heads on
the first slot. -/
def rx_ring_fresh (ring : XAxiDma_BdRing) : Prop :=
  ring.FreeCnt = ring.AllCnt ∧ ring.PreCnt = 0 ∧ ring.HwCnt = 0 ∧ ring.PostCnt = 0 ∧
  ring.FreeHead = 0 ∧ ring.PreHead = 0 ∧ ring.HwHead = 0 ∧ ring.PostHead = 0

/-- The steady state of the receive ring, in which `dma_rx_init` leaves it:
every slot is posted, so the four heads coincide. -/
def rx_ring_posted (ring : XAxiDma_BdRing) : Prop :=
  0 < ring.AllCnt ∧ ring.HwCnt = ring.AllCnt ∧
  ring.FreeCnt = 0 ∧ ring.PreCnt = 0 ∧ ring.PostCnt = 0 ∧
  ring.HwHead < ring.AllCnt ∧
  ring.FreeHead = ring.HwHead ∧ ring.PreHead = ring.HwHead ∧ ring.PostHead = ring.HwHead

instance (ring : XAxiDma_BdRing) : Decidable (rx_ring_posted ring) :=
  inferInstanceAs (Decidable (_ ∧ _))

/-- The engine without its log: rings, parameters and staging buffer. -/
def dma_t.unlogged (dma : dma_t) : dma_t := { dma with log := [] }

/-- The events of one invocation of `dma_rx_intr_handler`. -/
def rx_events (hw : hw_t) (ResetIsDone : Nat → Bool) (dma : dma_t) : List Event :=
  (dma_rx_intr_handler hw ResetIsDone dma).log.drop dma.log.length

/-- The events of one invocation of `dma_tx_intr_handler`. -/
def tx_events (ResetIsDone : Nat → Bool) (dma : dma_t) : List Event :=
  (dma_tx_intr_handler ResetIsDone dma).log.drop dma.log.length

/-- The callback invocations among the events, as `(buffer, length)`. -/
def callbacks : List Event → List (Nat × Nat)
  | [] => []
  | .callback buffer size :: es => (buffer, size) :: callbacks es
  | _ :: es => callbacks es

/-- The cache invalidations among the events, as `(address, length)`. -/
def invalidations : List Event → List (Nat × Nat)
  | [] => []
  | .DCacheInvalidateRange adr len :: es => (adr, len) :: invalidations es
  | _ :: es => invalidations es

/-- The answers among the events to the polls of the reset-done flag. -/
def polls : List Event → List Bool
  | [] => []
  | .ResetIsDone answer :: es => answer :: polls es
  | _ :: es => polls es

/-- The events other than polls of the reset-done flag. -/
def unpolled : List Event → List Event
  | [] => []
  | .ResetIsDone _ :: es => unpolled es
  | e :: es => e :: unpolled es

/-- The answers the reset-confirmation loop receives, started with the budget
`timeout` at poll number `i`. -/
def reset_polls (ResetIsDone : Nat → Bool) : Nat → Nat → List Bool
  | 0, _ => []
  | timeout + 1, i =>
    ResetIsDone i :: (if ResetIsDone i then [] else reset_polls ResetIsDone timeout (i + 1))

/-- The reassembly loop over a list of descriptors. -/
def rx_fold : List XAxiDma_Bd → dma_pkt_t → List Event → dma_pkt_t × List Event
  | [], rx_pkt, log => (rx_pkt, log)
  | bd :: bds, rx_pkt, log => rx_fold bds (rx_body bd rx_pkt log).1 (rx_body bd rx_pkt log).2

/-! ## Concrete states -/

/-- A receive descriptor over a 2048-byte buffer with the given status flags
and actual length. -/
def ex_bd (addr : Nat) (flags : Nat) (len : Nat) : XAxiDma_Bd :=
  { BufAddr := addr, Length := 2048, Ctrl := 0, Sts := flags ||| len }

/-- A receive ring whose slots are all posted, from slot `head` on, with the
pending interrupt bits `irq`. -/
def ex_rx_ring (bds : List XAxiDma_Bd) (head : Nat) (irq : Nat) : XAxiDma_BdRing :=
  { MaxTransferLen := 0x3FFFFFF, AllCnt := bds.length, FreeCnt := 0, PreCnt := 0,
    HwCnt := bds.length, PostCnt := 0, FreeHead := head, PreHead := head, HwHead := head,
    PostHead := head, Bds := bds, IrqStatus := irq }

/-- A transmit ring of two slots of which `free` are free and the others
posted, with the pending interrupt bits `irq`. -/
def ex_tx_ring (free : Nat) (irq : Nat) : XAxiDma_BdRing :=
  { MaxTransferLen := 0x3FFFFFF, AllCnt := 2, FreeCnt := free, PreCnt := 0,
    HwCnt := 2 - free, PostCnt := 0, FreeHead := 0, PreHead := 0, HwHead := free % 2,
    PostHead := free % 2, Bds := [⟨0, 0, 0, 0⟩, ⟨0, 0, 0, 0⟩], IrqStatus := irq }

/-- An engine with 2048-byte descriptor buffers and an eight-byte view of the
staging region. -/
def ex_dma (rx : XAxiDma_BdRing) (tx : XAxiDma_BdRing) : dma_t :=
  { params := { descriptor_buff_size := 2048, descriptors_count := rx.AllCnt,
                rx_buff_addr := 0x100000, tx_buff_addr := 0x900000 },
    RxBdRing := rx, TxBdRing := tx, tx_buff := [0, 0, 0, 0, 0, 0, 0, 0], log := [] }

/-- A vendor layer that accepts everything. -/
def hw_ok : hw_t :=
  { BdSetBufAddr := XST_SUCCESS, BdRingToHw := XST_SUCCESS, BdRingCreate := XST_SUCCESS,
    BdRingClone := XST_SUCCESS, BdRingStart := XST_SUCCESS }

/-- A vendor layer that refuses the commit. -/
def hw_commit_refused : hw_t := { hw_ok with BdRingToHw := XST_FAILURE }

/-- A reset-done flag that reports done at its fourth poll. -/
def done_at_3 : Nat → Bool := fun i => i == 3

/-- A reset-done flag that never reports done. -/
def never_done : Nat → Bool := fun _ => false

/-- The batch `[SOF, -, -, EOF]` with the lengths `[100, 200, 50, 10]`. -/
def ex_packet : List XAxiDma_Bd :=
  [ex_bd 0x100000 0x88000000 100, ex_bd 0x100800 0x80000000 200,
   ex_bd 0x101000 0x80000000 50, ex_bd 0x101800 0x84000000 10]

/-- The batch `[SOF, -, -]`: a packet whose end has not been drained yet. -/
def ex_open_packet : List XAxiDma_Bd :=
  [ex_bd 0x100000 0x88000000 100, ex_bd 0x100800 0x80000000 200,
   ex_bd 0x101000 0x80000000 50]

/-- The batch `[-, EOF]`: the tail of a packet whose start was drained by an
earlier invocation. -/
def ex_tail : List XAxiDma_Bd :=
  [ex_bd 0x101000 0x80000000 50, ex_bd 0x101800 0x84000000 10]

/-- The batch `[SOF, EOF]` with the lengths `[2048, 10]`: a packet of 2058
bytes in two consecutive buffers. -/
def ex_two : List XAxiDma_Bd :=
  [ex_bd 0x100000 0x88000000 2048, ex_bd 0x100800 0x84000000 10]

/-- A posted descriptor that the hardware has not completed. -/
def ex_pending : List XAxiDma_Bd := [ex_bd 0x100000 0 0]

/-- A vendor layer that refuses the buffer address of a descriptor. -/
def hw_addr_refused : hw_t := { hw_ok with BdSetBufAddr := XST_INVALID_PARAM }

/-- A transmit ring of two free slots whose maximum transfer length, 1023
bytes, is below the 2048 bytes of a descriptor buffer. -/
def ex_tx_ring_narrow : XAxiDma_BdRing := { ex_tx_ring 2 0 with MaxTransferLen := 1023 }

/-- Four posted descriptors of which the hardware has completed the first two,
each with a packet of 100 bytes of its own (`RXSOF` and `RXEOF`). -/
def ex_half : List XAxiDma_Bd :=
  [ex_bd 0x100000 0x8C000000 100, ex_bd 0x100800 0x8C000000 100,
   ex_bd 0x101000 0 0, ex_bd 0x101800 0 0]

/-- The descriptors of `ex_half` once the hardware has completed the last two
as well. -/
def ex_half_done : List XAxiDma_Bd :=
  [ex_bd 0x100000 0x8C000000 100, ex_bd 0x100800 0x8C000000 100,
   ex_bd 0x101000 0x8C000000 100, ex_bd 0x101800 0x8C000000 100]

/-- The engine at its second receive interrupt: `dma_rx_intr_handler` has
served the first two descriptors of `ex_half` from the steady state with the
commit refused, and the hardware has since completed the two descriptors still
posted and raised the completion interrupt. -/
def ex_after_refusal : dma_t :=
  let dma := dma_rx_intr_handler hw_commit_refused never_done
    (ex_dma (ex_rx_ring ex_half 0 0x1000) (ex_tx_ring 2 0))
  { dma with RxBdRing := { dma.RxBdRing with Bds := ex_half_done, IrqStatus := 0x1000 } }

/-! ## Events of the handlers -/

theorem irq_all_of_drains (irq : Nat)
    (h : irq &&& (XAXIDMA_IRQ_DELAY_MASK ||| XAXIDMA_IRQ_IOC_MASK) ≠ 0) :
    irq &&& XAXIDMA_IRQ_ALL_MASK ≠ 0 := by
  intro h0
  apply h
  have e : (XAXIDMA_IRQ_DELAY_MASK ||| XAXIDMA_IRQ_IOC_MASK)
      = XAXIDMA_IRQ_ALL_MASK &&& (XAXIDMA_IRQ_DELAY_MASK ||| XAXIDMA_IRQ_IOC_MASK) := by decide
  rw [e, ← Nat.land_assoc, h0]
  simp

theorem callbacks_append (a b : List Event) :
    callbacks (a ++ b) = callbacks a ++ callbacks b := by
  induction a with
  | nil => rfl
  | cons e es ih => cases e <;> simp [callbacks, ih]

theorem invalidations_append (a b : List Event) :
    invalidations (a ++ b) = invalidations a ++ invalidations b := by
  induction a with
  | nil => rfl
  | cons e es ih => cases e <;> simp [invalidations, ih]

theorem rx_body_log (bd : XAxiDma_Bd) (p : dma_pkt_t) (log : List Event) :
    rx_body bd p log = ((rx_body bd p []).1, log ++ (rx_body bd p []).2) := by
  unfold rx_body
  simp only []
  split <;> simp

theorem rx_fold_log (l : List XAxiDma_Bd) (p : dma_pkt_t) (log : List Event) :
    rx_fold l p log = ((rx_fold l p []).1, log ++ (rx_fold l p []).2) := by
  induction l generalizing p log with
  | nil => simp [rx_fold]
  | cons bd bds ih =>
    simp only [rx_fold]
    rw [ih, ih _ (rx_body bd p []).2, rx_body_log]
    simp

theorem rx_walk_eq_fold (ring : XAxiDma_BdRing) (n bd : Nat) (p : dma_pkt_t)
    (log : List Event) :
    rx_walk ring n bd p log = rx_fold ((XAxiDma_BdRingWalk ring n bd).map ring.slot) p log := by
  induction n generalizing bd p log with
  | zero => rfl
  | succ n ih => simp [rx_walk, XAxiDma_BdRingWalk, rx_fold, ih]

theorem rx_drained_eq_nil (dma : dma_t) :
    rx_drained dma = [] ↔
      (XAxiDma_BdRingFromHw (rx_acked dma).RxBdRing XAXIDMA_ALL_BDS).1 = 0 := by
  unfold rx_drained
  simp only []
  cases (XAxiDma_BdRingFromHw (rx_acked dma).RxBdRing XAXIDMA_ALL_BDS).1 with
  | zero => simp [XAxiDma_BdRingWalk]
  | succ n => simp [XAxiDma_BdRingWalk]

theorem rx_reprovision_log (hw : hw_t) (dma : dma_t) (k p : Nat) :
    ∃ s1 n2 p2 s2 s3, (rx_reprovision hw dma k p).log = dma.log ++
      [.BdRingFree .rx k p s1] ++ [.BdRingAlloc .rx n2 p2 s2] ++ [.BdRingToHw .rx n2 p2 s3] ++
        [.IntEnable .rx XAXIDMA_IRQ_ALL_MASK] :=
  ⟨_, _, _, _, _, rfl⟩

theorem rx_service_log (hw : hw_t) (dma : dma_t)
    (hk : (XAxiDma_BdRingFromHw dma.RxBdRing XAXIDMA_ALL_BDS).1 ≠ 0) :
    ∃ k p s1 n2 p2 s2 s3, (rx_service hw dma).log = dma.log ++
      ([.BdRingFromHw .rx XAXIDMA_ALL_BDS k p, .IntDisable .rx XAXIDMA_IRQ_ALL_MASK] ++
        (rx_fold ((XAxiDma_BdRingWalk (XAxiDma_BdRingFromHw dma.RxBdRing XAXIDMA_ALL_BDS).2.1
            (XAxiDma_BdRingFromHw dma.RxBdRing XAXIDMA_ALL_BDS).1
            (XAxiDma_BdRingFromHw dma.RxBdRing XAXIDMA_ALL_BDS).2.2).map
          (XAxiDma_BdRingFromHw dma.RxBdRing XAXIDMA_ALL_BDS).2.1.slot) ⟨NULL, 0, 0⟩ []).2 ++
        [.BdRingFree .rx k p s1, .BdRingAlloc .rx n2 p2 s2, .BdRingToHw .rx n2 p2 s3,
          .IntEnable .rx XAXIDMA_IRQ_ALL_MASK]) := by
  have h : ∃ k p s1 n2 p2 s2 s3, (rx_service hw dma).log =
      (rx_walk (XAxiDma_BdRingFromHw dma.RxBdRing XAXIDMA_ALL_BDS).2.1
        (XAxiDma_BdRingFromHw dma.RxBdRing XAXIDMA_ALL_BDS).1
        (XAxiDma_BdRingFromHw dma.RxBdRing XAXIDMA_ALL_BDS).2.2 ⟨NULL, 0, 0⟩
        (dma.log ++ [.BdRingFromHw .rx XAXIDMA_ALL_BDS k p] ++
          [.IntDisable .rx XAXIDMA_IRQ_ALL_MASK])).2 ++
      [.BdRingFree .rx k p s1] ++ [.BdRingAlloc .rx n2 p2 s2] ++ [.BdRingToHw .rx n2 p2 s3] ++
        [.IntEnable .rx XAXIDMA_IRQ_ALL_MASK] := by
    unfold rx_service
    simp only [hk, if_false]
    exact ⟨_, _, _, _, _, _, _, rfl⟩
  obtain ⟨k, p, s1, n2, p2, s2, s3, h⟩ := h
  refine ⟨k, p, s1, n2, p2, s2, s3, ?_⟩
  rw [h, rx_walk_eq_fold, rx_fold_log]
  simp

theorem reset_wait_eq (done : Nat → Bool) (t i : Nat) (dma : dma_t) :
    reset_wait done t i dma =
      { dma with log := dma.log ++ (reset_polls done t i).map .ResetIsDone } := by
  induction t generalizing i dma with
  | zero => simp [reset_wait, reset_polls]
  | succ t ih =>
    simp only [reset_wait, reset_polls, dma_t.emit]
    by_cases h : done i = true
    · simp [h]
    · simp [h, ih]

theorem rx_events_none (hw : hw_t) (done : Nat → Bool) (dma : dma_t)
    (h : XAxiDma_BdRingGetIrq dma.RxBdRing &&& XAXIDMA_IRQ_ALL_MASK = 0) :
    rx_events hw done dma = [] := by
  simp [rx_events, dma_rx_intr_handler, h]

theorem rx_events_error (hw : hw_t) (done : Nat → Bool) (dma : dma_t)
    (h : XAxiDma_BdRingGetIrq dma.RxBdRing &&& XAXIDMA_IRQ_ALL_MASK ≠ 0)
    (he : XAxiDma_BdRingGetIrq dma.RxBdRing &&& XAXIDMA_IRQ_ERROR_MASK ≠ 0) :
    rx_events hw done dma =
      [.AckIrq .rx (XAxiDma_BdRingGetIrq dma.RxBdRing), .Reset] ++
        (reset_polls done 10000 0).map .ResetIsDone := by
  simp [rx_events, dma_rx_intr_handler, h, he, reset_wait_eq, rx_acked, dma_t.emit]

theorem rx_events_idle (hw : hw_t) (done : Nat → Bool) (dma : dma_t)
    (h : XAxiDma_BdRingGetIrq dma.RxBdRing &&& XAXIDMA_IRQ_ALL_MASK ≠ 0)
    (he : XAxiDma_BdRingGetIrq dma.RxBdRing &&& XAXIDMA_IRQ_ERROR_MASK = 0)
    (hd : XAxiDma_BdRingGetIrq dma.RxBdRing &&&
      (XAXIDMA_IRQ_DELAY_MASK ||| XAXIDMA_IRQ_IOC_MASK) = 0) :
    rx_events hw done dma = [.AckIrq .rx (XAxiDma_BdRingGetIrq dma.RxBdRing)] := by
  simp [rx_events, dma_rx_intr_handler, h, he, hd, rx_acked, dma_t.emit]

theorem rx_events_empty (hw : hw_t) (done : Nat → Bool) (dma : dma_t)
    (h : rx_drains dma) (hnil : rx_drained dma = []) :
    ∃ p, rx_events hw done dma =
      [.AckIrq .rx (XAxiDma_BdRingGetIrq dma.RxBdRing),
        .BdRingFromHw .rx XAXIDMA_ALL_BDS 0 p] := by
  obtain ⟨he, hd⟩ := h
  have ha := irq_all_of_drains _ hd
  have hk := (rx_drained_eq_nil dma).1 hnil
  refine ⟨(XAxiDma_BdRingFromHw (rx_acked dma).RxBdRing XAXIDMA_ALL_BDS).2.2, ?_⟩
  simp only [rx_events, dma_rx_intr_handler, ha, he, hd, rx_service, hk, dma_t.emit,
    if_true, if_false, ne_eq, not_true_eq_false, not_false_eq_true]
  simp [rx_acked, dma_t.emit]

theorem rx_events_drain (hw : hw_t) (done : Nat → Bool) (dma : dma_t)
    (h : rx_drains dma) (hne : rx_drained dma ≠ []) :
    ∃ k p s1 n2 p2 s2 s3, rx_events hw done dma =
      [.AckIrq .rx (XAxiDma_BdRingGetIrq dma.RxBdRing),
        .BdRingFromHw .rx XAXIDMA_ALL_BDS k p, .IntDisable .rx XAXIDMA_IRQ_ALL_MASK] ++
      (rx_fold (rx_drained dma) ⟨NULL, 0, 0⟩ []).2 ++
      [.BdRingFree .rx k p s1, .BdRingAlloc .rx n2 p2 s2, .BdRingToHw .rx n2 p2 s3,
        .IntEnable .rx XAXIDMA_IRQ_ALL_MASK] := by
  obtain ⟨he, hd⟩ := h
  have ha := irq_all_of_drains _ hd
  have hk : (XAxiDma_BdRingFromHw (rx_acked dma).RxBdRing XAXIDMA_ALL_BDS).1 ≠ 0 :=
    fun h0 => hne ((rx_drained_eq_nil dma).2 h0)
  obtain ⟨k, p, s1, n2, p2, s2, s3, hs⟩ := rx_service_log hw (rx_acked dma) hk
  refine ⟨k, p, s1, n2, p2, s2, s3, ?_⟩
  simp only [rx_events, dma_rx_intr_handler, ha, he, hd, if_true, if_false, ne_eq,
    not_true_eq_false, not_false_eq_true]
  rw [hs]
  simp [rx_acked, dma_t.emit, rx_drained]

/-! ## The reassembly loop on one packet -/

theorem actualLength_lt (bd : XAxiDma_Bd) : bd.ActualLength < 4294967296 := by
  have h : bd.ActualLength ≤ u32_not XAXIDMA_BD_STS_ALL_MASK := Nat.and_le_right
  have e : u32_not XAXIDMA_BD_STS_ALL_MASK = 0x03FFFFFF := by decide
  rw [e] at h
  omega

theorem rx_body_skip (bd : XAxiDma_Bd) (b s : Nat) (log : List Event)
    (hc : ¬ bd.COMPLETE) :
    rx_body bd ⟨b, s, 0⟩ log = (⟨b, s, 0⟩, log) := by
  have hc' : XAxiDma_BdGetSts bd &&& XAXIDMA_BD_STS_COMPLETE_MASK = 0 := by
    simpa [XAxiDma_Bd.COMPLETE] using hc
  simp [rx_body, rx_account, hc']

theorem rx_body_cont (bd : XAxiDma_Bd) (b s : Nat) (log : List Event)
    (hc : bd.COMPLETE) (hs : ¬ bd.RXSOF) (he : ¬ bd.RXEOF) :
    rx_body bd ⟨b, s, 0⟩ log = (⟨b, (s + bd.ActualLength) % 2 ^ 32, 0⟩, log) := by
  have hc' : XAxiDma_BdGetSts bd &&& XAXIDMA_BD_STS_COMPLETE_MASK ≠ 0 := hc
  have hs' : XAxiDma_BdGetSts bd &&& XAXIDMA_BD_STS_RXSOF_MASK = 0 := by
    simpa [XAxiDma_Bd.RXSOF] using hs
  have he' : XAxiDma_BdGetSts bd &&& XAXIDMA_BD_STS_RXEOF_MASK = 0 := by
    simpa [XAxiDma_Bd.RXEOF] using he
  simp [rx_body, rx_account, hc', hs', he', XAxiDma_Bd.ActualLength]

theorem rx_body_cont_eof (bd : XAxiDma_Bd) (b s : Nat) (log : List Event)
    (hc : bd.COMPLETE) (hs : ¬ bd.RXSOF) (he : bd.RXEOF) :
    rx_body bd ⟨b, s, 0⟩ log =
      (⟨b, (s + bd.ActualLength) % 2 ^ 32, 0⟩,
       log ++ [.DCacheInvalidateRange bd.BufAddr ((s + bd.ActualLength) % 2 ^ 32),
               .callback b ((s + bd.ActualLength) % 2 ^ 32)]) := by
  have hc' : XAxiDma_BdGetSts bd &&& XAXIDMA_BD_STS_COMPLETE_MASK ≠ 0 := hc
  have hs' : XAxiDma_BdGetSts bd &&& XAXIDMA_BD_STS_RXSOF_MASK = 0 := by
    simpa [XAxiDma_Bd.RXSOF] using hs
  have he' : XAxiDma_BdGetSts bd &&& XAXIDMA_BD_STS_RXEOF_MASK ≠ 0 := he
  simp [rx_body, rx_account, hc', hs', he', XAxiDma_Bd.ActualLength, XAxiDma_BdGetBufAddr]

theorem rx_body_sof (bd : XAxiDma_Bd) (b s : Nat) (log : List Event)
    (hc : bd.COMPLETE) (hs : bd.RXSOF) (he : ¬ bd.RXEOF) :
    rx_body bd ⟨b, s, 0⟩ log = (⟨bd.BufAddr, bd.ActualLength, 0⟩, log) := by
  have hc' : XAxiDma_BdGetSts bd &&& XAXIDMA_BD_STS_COMPLETE_MASK ≠ 0 := hc
  have hs' : XAxiDma_BdGetSts bd &&& XAXIDMA_BD_STS_RXSOF_MASK ≠ 0 := hs
  have he' : XAxiDma_BdGetSts bd &&& XAXIDMA_BD_STS_RXEOF_MASK = 0 := by
    simpa [XAxiDma_Bd.RXEOF] using he
  simp [rx_body, rx_account, hc', hs', he', XAxiDma_Bd.ActualLength, XAxiDma_BdGetBufAddr]

theorem rx_body_sof_eof (bd : XAxiDma_Bd) (b s : Nat) (log : List Event)
    (hc : bd.COMPLETE) (hs : bd.RXSOF) (he : bd.RXEOF) :
    rx_body bd ⟨b, s, 0⟩ log =
      (⟨bd.BufAddr, bd.ActualLength, 0⟩,
       log ++ [.DCacheInvalidateRange bd.BufAddr bd.ActualLength,
               .callback bd.BufAddr bd.ActualLength]) := by
  have hc' : XAxiDma_BdGetSts bd &&& XAXIDMA_BD_STS_COMPLETE_MASK ≠ 0 := hc
  have hs' : XAxiDma_BdGetSts bd &&& XAXIDMA_BD_STS_RXSOF_MASK ≠ 0 := hs
  have he' : XAxiDma_BdGetSts bd &&& XAXIDMA_BD_STS_RXEOF_MASK ≠ 0 := he
  simp [rx_body, rx_account, hc', hs', he', XAxiDma_Bd.ActualLength, XAxiDma_BdGetBufAddr]

theorem rx_fold_cons (x : XAxiDma_Bd) (xs : List XAxiDma_Bd) (p : dma_pkt_t)
    (log : List Event) :
    rx_fold (x :: xs) p log = rx_fold xs (rx_body x p log).1 (rx_body x p log).2 := rfl

/-- The continuation of a packet: descriptors without `RXSOF`, the last one
and only the last one with `RXEOF`, deliver the packet once. -/
theorem rx_fold_tail (l : List XAxiDma_Bd) (hne : l ≠ []) (b s : Nat)
    (hc : ∀ bd ∈ l, bd.COMPLETE) (hs : ∀ bd ∈ l, ¬ bd.RXSOF)
    (he : (l.getLast hne).RXEOF) (hm : ∀ bd ∈ l.dropLast, ¬ bd.RXEOF) :
    (rx_fold l ⟨b, s, 0⟩ []).2 =
      [.DCacheInvalidateRange (l.getLast hne).BufAddr
          ((s + (l.map XAxiDma_Bd.ActualLength).sum) % 2 ^ 32),
       .callback b ((s + (l.map XAxiDma_Bd.ActualLength).sum) % 2 ^ 32)] := by
  induction l generalizing s with
  | nil => exact absurd rfl hne
  | cons x xs ih =>
    cases xs with
    | nil =>
      have hx : x.RXEOF := by simpa using he
      simp [rx_fold, rx_body_cont_eof x b s [] (hc x (by simp)) (hs x (by simp)) hx]
    | cons y ys =>
      have hx : ¬ x.RXEOF := hm x (by simp [List.dropLast])
      rw [rx_fold_cons, rx_body_cont x b s [] (hc x (by simp)) (hs x (by simp)) hx]
      rw [ih (by simp) _ (fun bd h => hc bd (List.mem_cons_of_mem _ h))
        (fun bd h => hs bd (List.mem_cons_of_mem _ h)) (by simpa using he)
        (fun bd h => hm bd (by simp [List.dropLast] at h ⊢; exact Or.inr h))]
      have e : ((s + x.ActualLength) % 2 ^ 32 +
          (List.map XAxiDma_Bd.ActualLength (y :: ys)).sum) % 2 ^ 32 =
          (s + (List.map XAxiDma_Bd.ActualLength (x :: y :: ys)).sum) % 2 ^ 32 := by
        simp only [List.map_cons, List.sum_cons]
        omega
      rw [e]
      simp

/-- A well-formed packet, from its `RXSOF` descriptor to its `RXEOF`
descriptor, is delivered once: the events of the reassembly loop. -/
theorem rx_fold_packet (l : List XAxiDma_Bd) (hne : l ≠ [])
    (hc : ∀ bd ∈ l, bd.COMPLETE) (h0 : (l.head hne).RXSOF)
    (hs : ∀ bd ∈ l.tail, ¬ bd.RXSOF)
    (he : (l.getLast hne).RXEOF) (hm : ∀ bd ∈ l.dropLast, ¬ bd.RXEOF) :
    (rx_fold l ⟨NULL, 0, 0⟩ []).2 =
      [.DCacheInvalidateRange (l.getLast hne).BufAddr
          ((l.map XAxiDma_Bd.ActualLength).sum % 2 ^ 32),
       .callback (l.head hne).BufAddr ((l.map XAxiDma_Bd.ActualLength).sum % 2 ^ 32)] := by
  cases l with
  | nil => exact absurd rfl hne
  | cons x xs =>
    cases xs with
    | nil =>
      have hx : x.RXEOF := by simpa using he
      have hlt := actualLength_lt x
      simp [rx_fold, rx_body_sof_eof x NULL 0 [] (hc x (by simp)) (by simpa using h0) hx,
        Nat.mod_eq_of_lt hlt]
    | cons y ys =>
      have hx : ¬ x.RXEOF := hm x (by simp [List.dropLast])
      rw [rx_fold_cons, rx_body_sof x NULL 0 [] (hc x (by simp)) (by simpa using h0) hx]
      rw [rx_fold_tail (y :: ys) (by simp) _ _ (fun bd h => hc bd (List.mem_cons_of_mem _ h))
        (fun bd h => hs bd (by simpa using h)) (by simpa using he)
        (fun bd h => hm bd (by simp [List.dropLast] at h ⊢; exact Or.inr h))]
      simp

/-! ## Reassembly: delivery of a packet -/

/-- The events of a receive invocation whose drained batch is one well-formed
packet. -/
theorem rx_events_packet (hw : hw_t) (done : Nat → Bool) (dma : dma_t)
    (first : XAxiDma_Bd) (rest : List XAxiDma_Bd)
    (hirq : rx_drains dma) (hb : rx_drained dma = first :: rest)
    (hc : ∀ bd ∈ first :: rest, bd.COMPLETE) (h0 : first.RXSOF)
    (hs : ∀ bd ∈ rest, ¬ bd.RXSOF)
    (he : ((first :: rest).getLast (List.cons_ne_nil _ _)).RXEOF)
    (hm : ∀ bd ∈ (first :: rest).dropLast, ¬ bd.RXEOF) :
    ∃ k p s1 n2 p2 s2 s3, rx_events hw done dma =
      [.AckIrq .rx (XAxiDma_BdRingGetIrq dma.RxBdRing),
        .BdRingFromHw .rx XAXIDMA_ALL_BDS k p, .IntDisable .rx XAXIDMA_IRQ_ALL_MASK,
        .DCacheInvalidateRange ((first :: rest).getLast (List.cons_ne_nil _ _)).BufAddr
          (((first :: rest).map XAxiDma_Bd.ActualLength).sum % 2 ^ 32),
        .callback first.BufAddr (((first :: rest).map XAxiDma_Bd.ActualLength).sum % 2 ^ 32),
        .BdRingFree .rx k p s1, .BdRingAlloc .rx n2 p2 s2, .BdRingToHw .rx n2 p2 s3,
        .IntEnable .rx XAXIDMA_IRQ_ALL_MASK] := by
  obtain ⟨k, p, s1, n2, p2, s2, s3, h⟩ :=
    rx_events_drain hw done dma hirq (by rw [hb]; exact List.cons_ne_nil _ _)
  refine ⟨k, p, s1, n2, p2, s2, s3, ?_⟩
  rw [h, hb, rx_fold_packet (first :: rest) (List.cons_ne_nil _ _) hc h0 hs he hm]
  simp

/-- A batch of at most `descriptors_count` descriptors, each filled with at most
`descriptor_buff_size` bytes, holds fewer than `2 ^ 32` bytes when the receive
region `descriptors_count * descriptor_buff_size` fits in the 32-bit address
space of the target. -/
theorem rx_batch_fits (params : dma_dev_t) (batch : List XAxiDma_Bd)
    (hlen : ∀ bd ∈ batch, bd.ActualLength ≤ params.descriptor_buff_size)
    (hcnt : batch.length ≤ params.descriptors_count)
    (hreg : params.descriptors_count * params.descriptor_buff_size < 2 ^ 32) :
    (batch.map XAxiDma_Bd.ActualLength).sum < 2 ^ 32 := by
  have hsum : ∀ l : List XAxiDma_Bd,
      (∀ bd ∈ l, bd.ActualLength ≤ params.descriptor_buff_size) →
      (l.map XAxiDma_Bd.ActualLength).sum ≤ l.length * params.descriptor_buff_size := by
    intro l
    induction l with
    | nil => intro _; simp
    | cons x xs ih =>
      intro h
      have hx := h x (List.mem_cons_self _ _)
      have hxs := ih (fun bd hbd => h bd (List.mem_cons_of_mem _ hbd))
      simp only [List.map_cons, List.sum_cons, List.length_cons, Nat.add_mul, Nat.one_mul]
      omega
  have h1 := hsum batch hlen
  have h2 := Nat.mul_le_mul_right params.descriptor_buff_size hcnt
  omega

/-- C1: when the drained batch is non-empty, every descriptor is `COMPLETE`,
the first has `RXSOF`, the last has `RXEOF` and no other descriptor has `RXSOF`
or `RXEOF`, `dma_rx_intr_handler` invokes the callback exactly once, with the
buffer address of the first descriptor and the sum of the actual lengths of the
batch.  The batch is one the engine can receive: its bytes fit in the 32-bit
address space of the target, so the sum is below `2 ^ 32`. -/
theorem rx_packet_delivered_once (hw : hw_t) (ResetIsDone : Nat → Bool) (dma : dma_t)
    (first : XAxiDma_Bd) (rest : List XAxiDma_Bd)
    (hirq : rx_drains dma) (hb : rx_drained dma = first :: rest)
    (hc : ∀ bd ∈ first :: rest, bd.COMPLETE) (h0 : first.RXSOF)
    (hs : ∀ bd ∈ rest, ¬ bd.RXSOF)
    (he : ((first :: rest).getLast (List.cons_ne_nil _ _)).RXEOF)
    (hm : ∀ bd ∈ (first :: rest).dropLast, ¬ bd.RXEOF)
    (hfit : ((first :: rest).map XAxiDma_Bd.ActualLength).sum < 2 ^ 32) :
    callbacks (rx_events hw ResetIsDone dma) =
      [(first.BufAddr, ((first :: rest).map XAxiDma_Bd.ActualLength).sum)] := by
  obtain ⟨k, p, s1, n2, p2, s2, s3, h⟩ :=
    rx_events_packet hw ResetIsDone dma first rest hirq hb hc h0 hs he hm
  rw [h, Nat.mod_eq_of_lt hfit]
  rfl

/-- The example of the specification: flags `[SOF, -, -, EOF]` with lengths
`[100, 200, 50, 10]` give one call with length 360. -/
theorem rx_packet_delivered_once_witness :
    rx_drains (ex_dma (ex_rx_ring ex_packet 0 0x1000) (ex_tx_ring 2 0)) ∧
    rx_drained (ex_dma (ex_rx_ring ex_packet 0 0x1000) (ex_tx_ring 2 0)) = ex_packet ∧
    (ex_packet.map XAxiDma_Bd.ActualLength).sum = 360 ∧
    callbacks (rx_events hw_ok never_done
      (ex_dma (ex_rx_ring ex_packet 0 0x1000) (ex_tx_ring 2 0))) = [(0x100000, 360)] :=
  ⟨by decide, by decide, by decide,
   rx_packet_delivered_once hw_ok never_done
    (ex_dma (ex_rx_ring ex_packet 0 0x1000) (ex_tx_ring 2 0))
    (ex_bd 0x100000 0x88000000 100)
    [ex_bd 0x100800 0x80000000 200, ex_bd 0x101000 0x80000000 50,
      ex_bd 0x101800 0x84000000 10]
    (by decide) (by decide) (by decide) (by decide) (by decide) (by decide) (by decide)
    (by decide)⟩

/-! ## Reassembly: batches without an end, cache maintenance -/

theorem callbacks_polls (l : List Bool) : callbacks (l.map Event.ResetIsDone) = [] := by
  induction l with
  | nil => rfl
  | cons a l ih => simpa [callbacks] using ih

theorem rx_body_no_eof (bd : XAxiDma_Bd) (p : dma_pkt_t) (log : List Event)
    (hp : p.completed = 0) (he : ¬ bd.RXEOF) :
    (rx_body bd p log).1.completed = 0 ∧ (rx_body bd p log).2 = log := by
  have he' : XAxiDma_BdGetSts bd &&& XAXIDMA_BD_STS_RXEOF_MASK = 0 := by
    simpa [XAxiDma_Bd.RXEOF] using he
  have ha : (rx_account bd p).completed = 0 := by
    simp only [rx_account, he']
    by_cases hc : XAxiDma_BdGetSts bd &&& XAXIDMA_BD_STS_COMPLETE_MASK = 0
    · simp [hc, hp]
    · by_cases hs : XAxiDma_BdGetSts bd &&& XAXIDMA_BD_STS_RXSOF_MASK = 0
      · simp [hc, hs, hp]
      · simp [hc, hs, hp]
  simp [rx_body, ha]

theorem rx_fold_no_eof (l : List XAxiDma_Bd) (p : dma_pkt_t) (log : List Event)
    (hp : p.completed = 0) (he : ∀ bd ∈ l, ¬ bd.RXEOF) :
    (rx_fold l p log).2 = log := by
  induction l generalizing p log with
  | nil => rfl
  | cons x xs ih =>
    obtain ⟨h1, h2⟩ := rx_body_no_eof x p log hp (he x (by simp))
    rw [rx_fold_cons, ih _ _ h1 (fun bd h => he bd (List.mem_cons_of_mem _ h)), h2]

/-- The irq bits of an invocation fall into one of the four branches. -/
theorem rx_irq_cases (dma : dma_t) :
    XAxiDma_BdRingGetIrq dma.RxBdRing &&& XAXIDMA_IRQ_ALL_MASK = 0 ∨
    (XAxiDma_BdRingGetIrq dma.RxBdRing &&& XAXIDMA_IRQ_ALL_MASK ≠ 0 ∧
      XAxiDma_BdRingGetIrq dma.RxBdRing &&& XAXIDMA_IRQ_ERROR_MASK ≠ 0) ∨
    (XAxiDma_BdRingGetIrq dma.RxBdRing &&& XAXIDMA_IRQ_ALL_MASK ≠ 0 ∧
      XAxiDma_BdRingGetIrq dma.RxBdRing &&& XAXIDMA_IRQ_ERROR_MASK = 0 ∧
      XAxiDma_BdRingGetIrq dma.RxBdRing &&&
        (XAXIDMA_IRQ_DELAY_MASK ||| XAXIDMA_IRQ_IOC_MASK) = 0) ∨
    rx_drains dma := by
  unfold rx_drains
  by_cases h1 : XAxiDma_BdRingGetIrq dma.RxBdRing &&& XAXIDMA_IRQ_ALL_MASK = 0
  · exact Or.inl h1
  · by_cases h2 : XAxiDma_BdRingGetIrq dma.RxBdRing &&& XAXIDMA_IRQ_ERROR_MASK = 0
    · by_cases h3 : XAxiDma_BdRingGetIrq dma.RxBdRing &&&
          (XAXIDMA_IRQ_DELAY_MASK ||| XAXIDMA_IRQ_IOC_MASK) = 0
      · exact Or.inr (Or.inr (Or.inl ⟨h1, h2, h3⟩))
      · exact Or.inr (Or.inr (Or.inr ⟨h2, h3⟩))
    · exact Or.inr (Or.inl ⟨h1, h2⟩)

/-- C2: when no descriptor of the drained batch has `RXEOF` set,
`dma_rx_intr_handler` does not invoke the callback at all during that
invocation. -/
theorem rx_no_eof_no_callback (hw : hw_t) (ResetIsDone : Nat → Bool) (dma : dma_t)
    (he : ∀ bd ∈ rx_drained dma, ¬ bd.RXEOF) :
    callbacks (rx_events hw ResetIsDone dma) = [] := by
  rcases rx_irq_cases dma with h | ⟨h, h2⟩ | ⟨h, h2, h3⟩ | h
  · rw [rx_events_none hw ResetIsDone dma h]; rfl
  · rw [rx_events_error hw ResetIsDone dma h h2, callbacks_append, callbacks_polls]; rfl
  · rw [rx_events_idle hw ResetIsDone dma h h2 h3]; rfl
  · by_cases hn : rx_drained dma = []
    · obtain ⟨p, hp⟩ := rx_events_empty hw ResetIsDone dma h hn
      rw [hp]; rfl
    · obtain ⟨k, p, s1, n2, p2, s2, s3, hp⟩ := rx_events_drain hw ResetIsDone dma h hn
      rw [hp, rx_fold_no_eof _ _ _ rfl he]
      rfl

/-- The batch `[SOF, -, -]` is drained without a callback. -/
theorem rx_no_eof_no_callback_witness :
    (∀ bd ∈ rx_drained (ex_dma (ex_rx_ring ex_open_packet 0 0x1000) (ex_tx_ring 2 0)),
      ¬ bd.RXEOF) ∧
    rx_drained (ex_dma (ex_rx_ring ex_open_packet 0 0x1000) (ex_tx_ring 2 0)) =
      ex_open_packet ∧
    callbacks (rx_events hw_ok never_done
      (ex_dma (ex_rx_ring ex_open_packet 0 0x1000) (ex_tx_ring 2 0))) = [] :=
  ⟨by decide, by decide,
   rx_no_eof_no_callback hw_ok never_done
    (ex_dma (ex_rx_ring ex_open_packet 0 0x1000) (ex_tx_ring 2 0)) (by decide)⟩

/-- C8 at the batch `[SOF, EOF]` with buffers at `0x100000` and `0x100800` and
lengths `[2048, 10]`: the packet handed to the callback starts at `0x100000`
and has length 2058, while the one cache invalidate before it starts at
`0x100800`, the buffer of the last descriptor, with length 2058. -/
theorem rx_invalidate_starts_at_last_descriptor :
    rx_drained (ex_dma (ex_rx_ring ex_two 0 0x1000) (ex_tx_ring 2 0)) = ex_two ∧
    callbacks (rx_events hw_ok never_done
      (ex_dma (ex_rx_ring ex_two 0 0x1000) (ex_tx_ring 2 0))) = [(0x100000, 2058)] ∧
    invalidations (rx_events hw_ok never_done
      (ex_dma (ex_rx_ring ex_two 0 0x1000) (ex_tx_ring 2 0))) = [(0x100800, 2058)] := by
  decide

/-! ## Reassembly: a batch that opens with a tail -/

theorem rx_fold_append (a b : List XAxiDma_Bd) (p : dma_pkt_t) (log : List Event) :
    rx_fold (a ++ b) p log = rx_fold b (rx_fold a p log).1 (rx_fold a p log).2 := by
  induction a generalizing p log with
  | nil => rfl
  | cons x xs ih => simp only [List.cons_append, rx_fold_cons, ih]

/-- Descriptors that neither start a packet nor complete one only add their
actual lengths to the running size, those that are `COMPLETE`. -/
theorem rx_fold_pre (l : List XAxiDma_Bd) (b s : Nat) (log : List Event)
    (hlt : s < 4294967296)
    (he : ∀ bd ∈ l, ¬ (bd.COMPLETE ∧ bd.RXEOF)) (hs : ∀ bd ∈ l, ¬ bd.RXSOF) :
    rx_fold l ⟨b, s, 0⟩ log =
      (⟨b, (s + ((l.filter fun bd => decide bd.COMPLETE).map
          XAxiDma_Bd.ActualLength).sum) % 2 ^ 32, 0⟩, log) := by
  induction l generalizing s with
  | nil => simp [rx_fold, Nat.mod_eq_of_lt hlt]
  | cons x xs ih =>
    have hxs := hs x (by simp)
    have hee := fun bd h => he bd (List.mem_cons_of_mem x h)
    have hss := fun bd h => hs bd (List.mem_cons_of_mem x h)
    by_cases hc : x.COMPLETE
    · have hxe : ¬ x.RXEOF := fun h => he x (by simp) ⟨hc, h⟩
      rw [rx_fold_cons, rx_body_cont x b s log hc hxs hxe]
      dsimp only
      rw [ih ((s + x.ActualLength) % 2 ^ 32) (Nat.mod_lt _ (by norm_num)) hee hss]
      simp only [List.filter_cons, hc, decide_True, if_true, List.map_cons, List.sum_cons]
      congr 2
      omega
    · rw [rx_fold_cons, rx_body_skip x b s log hc]
      dsimp only
      rw [ih _ hlt hee hss]
      simp [List.filter_cons, hc]

/-- The events of the reassembly loop on a batch that opens with the tail of
a packet. -/
theorem rx_fold_orphan (tail : List XAxiDma_Bd) (last : XAxiDma_Bd)
    (rest : List XAxiDma_Bd)
    (he : ∀ bd ∈ tail, ¬ (bd.COMPLETE ∧ bd.RXEOF)) (hs : ∀ bd ∈ tail, ¬ bd.RXSOF)
    (hlc : last.COMPLETE) (hle : last.RXEOF) (hls : ¬ last.RXSOF) :
    ∃ more, (rx_fold (tail ++ last :: rest) ⟨NULL, 0, 0⟩ []).2 =
      .DCacheInvalidateRange last.BufAddr
        ((((tail ++ [last]).filter fun bd => decide bd.COMPLETE).map
          XAxiDma_Bd.ActualLength).sum % 2 ^ 32) ::
      .callback NULL
        ((((tail ++ [last]).filter fun bd => decide bd.COMPLETE).map
          XAxiDma_Bd.ActualLength).sum % 2 ^ 32) :: more := by
  have e : ((0 + ((tail.filter fun bd => decide bd.COMPLETE).map
      XAxiDma_Bd.ActualLength).sum) % 2 ^ 32 + last.ActualLength) % 2 ^ 32 =
      (((tail ++ [last]).filter fun bd => decide bd.COMPLETE).map
        XAxiDma_Bd.ActualLength).sum % 2 ^ 32 := by
    simp only [List.filter_append, List.map_append, List.sum_append, List.filter_cons,
      List.filter_nil, hlc, decide_True, if_true, List.map_cons, List.map_nil,
      List.sum_cons, List.sum_nil]
    omega
  refine ⟨(rx_fold rest ⟨NULL, (((tail ++ [last]).filter fun bd => decide bd.COMPLETE).map
    XAxiDma_Bd.ActualLength).sum % 2 ^ 32, 0⟩ []).2, ?_⟩
  rw [rx_fold_append, rx_fold_pre tail NULL 0 [] (by norm_num) he hs]
  dsimp only
  rw [rx_fold_cons, rx_body_cont_eof last _ _ [] hlc hls hle]
  dsimp only
  rw [rx_fold_log]
  dsimp only
  rw [e]
  rfl

/-- C9 (amended): when the drained batch opens with the tail of a packet (its
first `COMPLETE` descriptor with `RXEOF` has no `RXSOF`, and no descriptor before
it has `RXSOF`), `dma_rx_intr_handler` does invoke the callback at that
descriptor: its first callback has a null buffer pointer, and as length the sum
modulo `2 ^ 32` of the actual lengths of the `COMPLETE` descriptors of the
tail. -/
theorem rx_orphan_tail_delivered (hw : hw_t) (ResetIsDone : Nat → Bool) (dma : dma_t)
    (tail : List XAxiDma_Bd) (last : XAxiDma_Bd) (rest : List XAxiDma_Bd)
    (hirq : rx_drains dma) (hb : rx_drained dma = tail ++ last :: rest)
    (he : ∀ bd ∈ tail, ¬ (bd.COMPLETE ∧ bd.RXEOF)) (hs : ∀ bd ∈ tail, ¬ bd.RXSOF)
    (hlc : last.COMPLETE) (hle : last.RXEOF) (hls : ¬ last.RXSOF) :
    (callbacks (rx_events hw ResetIsDone dma)).head? =
      some (NULL, (((tail ++ [last]).filter fun bd => decide bd.COMPLETE).map
        XAxiDma_Bd.ActualLength).sum % 2 ^ 32) := by
  obtain ⟨k, p, s1, n2, p2, s2, s3, h⟩ :=
    rx_events_drain hw ResetIsDone dma hirq (by rw [hb]; simp)
  obtain ⟨more, hm⟩ := rx_fold_orphan tail last rest he hs hlc hle hls
  rw [h, hb, hm]
  rfl

/-- The batch `[-, EOF]` with lengths `[50, 10]`: the callback is invoked with
a null buffer and length 60. -/
theorem rx_orphan_tail_delivered_witness :
    rx_drains (ex_dma (ex_rx_ring ex_tail 0 0x1000) (ex_tx_ring 2 0)) ∧
    rx_drained (ex_dma (ex_rx_ring ex_tail 0 0x1000) (ex_tx_ring 2 0)) = ex_tail ∧
    (callbacks (rx_events hw_ok never_done
      (ex_dma (ex_rx_ring ex_tail 0 0x1000) (ex_tx_ring 2 0)))).head? = some (0, 60) :=
  ⟨by decide, by decide,
   rx_orphan_tail_delivered hw_ok never_done
    (ex_dma (ex_rx_ring ex_tail 0 0x1000) (ex_tx_ring 2 0))
    [ex_bd 0x101000 0x80000000 50] (ex_bd 0x101800 0x84000000 10) []
    (by decide) (by decide) (by decide) (by decide) (by decide) (by decide) (by decide)⟩

/-- C9 (as stated) fails on the batch `[-, EOF]`: no descriptor of the batch
has `RXSOF`, its second descriptor is `COMPLETE` with `RXEOF`, and the callback
is invoked once, for that tail. -/
theorem rx_orphan_tail_not_lost :
    rx_drained (ex_dma (ex_rx_ring ex_tail 0 0x1000) (ex_tx_ring 2 0)) = ex_tail ∧
    (∀ bd ∈ ex_tail, bd.COMPLETE ∧ ¬ bd.RXSOF) ∧
    (∀ bd ∈ ex_tail.take 1, ¬ bd.RXEOF) ∧ (∀ bd ∈ ex_tail.drop 1, bd.RXEOF) ∧
    callbacks (rx_events hw_ok never_done
      (ex_dma (ex_rx_ring ex_tail 0 0x1000) (ex_tx_ring 2 0))) = [(0, 60)] ∧
    callbacks (rx_events hw_ok never_done
      (ex_dma (ex_rx_ring ex_tail 0 0x1000) (ex_tx_ring 2 0))) ≠ [] := by
  decide

/-! ## Transmit -/

/-- C3: `dma_transmit` with a size above `params.descriptor_buff_size` returns
`-XST_FAILURE` and leaves the engine as it was (rings, staging buffer and log:
no ring operation and no staging-buffer write); with the size equal to
`params.descriptor_buff_size` it passes the size guard and, when the ring
primitives succeed (a slot is free, the address and the length are accepted,
the reserved slot is the next to commit and the commit is accepted), it
returns `XST_SUCCESS`. -/
theorem transmit_size_boundary (hw : hw_t) (dma : dma_t) (buffer : List Nat) (size : Nat) :
    (dma.params.descriptor_buff_size < size →
      dma_transmit hw dma buffer size = (-XST_FAILURE, dma)) ∧
    (size = dma.params.descriptor_buff_size →
      DMA_TX_BD_CNT ≤ dma.TxBdRing.FreeCnt →
      hw.BdSetBufAddr = XST_SUCCESS →
      0 < size → size ≤ dma.TxBdRing.MaxTransferLen →
      dma.TxBdRing.PreHead = dma.TxBdRing.FreeHead →
      hw.BdRingToHw = XST_SUCCESS →
      (dma_transmit hw dma buffer size).1 = XST_SUCCESS ∧
      (dma_transmit hw dma buffer size).2.TxBdRing.FreeCnt + 1 = dma.TxBdRing.FreeCnt ∧
      (dma_transmit hw dma buffer size).2.TxBdRing.HwCnt = dma.TxBdRing.HwCnt + 1) := by
  constructor
  · intro h
    simp [dma_transmit, h]
  · intro hs hf ha h0 hm hp ht
    have hg : ¬ size > dma.params.descriptor_buff_size := by omega
    have hf' : ¬ dma.TxBdRing.FreeCnt < 1 := by unfold DMA_TX_BD_CNT at hf; omega
    have hl : ¬ (size = 0 ∨ size > dma.TxBdRing.MaxTransferLen) := by omega
    simp only [dma_transmit, hg, if_false, XAxiDma_BdRingAlloc, DMA_TX_BD_CNT, hf',
      XAxiDma_BdSetBufAddr, ha, XAxiDma_BdSetLength, hl, XAxiDma_BdSetCtrl,
      XAxiDma_BdRingToHw, ht, hp, dma_t.emit, ne_eq, not_true_eq_false, one_ne_zero]
    simp
    unfold DMA_TX_BD_CNT at hf
    omega


/-- At the boundary: 2049 bytes are refused with the engine untouched, 2048
bytes are sent. -/
theorem transmit_size_boundary_witness :
    dma_transmit hw_ok (ex_dma (ex_rx_ring ex_packet 0 0) (ex_tx_ring 2 0))
      (List.replicate 2049 7) 2049 =
      (-XST_FAILURE, ex_dma (ex_rx_ring ex_packet 0 0) (ex_tx_ring 2 0)) ∧
    ((dma_transmit hw_ok (ex_dma (ex_rx_ring ex_packet 0 0) (ex_tx_ring 2 0))
      (List.replicate 2048 7) 2048).1 = XST_SUCCESS ∧
     (dma_transmit hw_ok (ex_dma (ex_rx_ring ex_packet 0 0) (ex_tx_ring 2 0))
      (List.replicate 2048 7) 2048).2.TxBdRing.FreeCnt + 1 = 2 ∧
     (dma_transmit hw_ok (ex_dma (ex_rx_ring ex_packet 0 0) (ex_tx_ring 2 0))
      (List.replicate 2048 7) 2048).2.TxBdRing.HwCnt = 0 + 1) :=
  ⟨(transmit_size_boundary hw_ok (ex_dma (ex_rx_ring ex_packet 0 0) (ex_tx_ring 2 0))
      (List.replicate 2049 7) 2049).1 (by decide),
   (transmit_size_boundary hw_ok (ex_dma (ex_rx_ring ex_packet 0 0) (ex_tx_ring 2 0))
      (List.replicate 2048 7) 2048).2 (by decide) (by decide) (by decide) (by decide)
      (by decide) (by decide) (by decide)⟩

/-- C4: when the transmit ring has no free slot, `dma_transmit` with an
admissible size returns the error of the reserve, which is not `XST_SUCCESS`,
and changes nothing but the log, where the failed reserve is the only entry:
both rings, with all their descriptors and counts, and the staging buffer are
as before. -/
theorem transmit_saturated (hw : hw_t) (dma : dma_t) (buffer : List Nat) (size : Nat)
    (hs : size ≤ dma.params.descriptor_buff_size)
    (hf : dma.TxBdRing.FreeCnt < DMA_TX_BD_CNT) :
    (dma_transmit hw dma buffer size).1 =
      (XAxiDma_BdRingAlloc dma.TxBdRing DMA_TX_BD_CNT NULL).1 ∧
    (dma_transmit hw dma buffer size).1 = XST_FAILURE ∧
    (dma_transmit hw dma buffer size).1 ≠ XST_SUCCESS ∧
    (dma_transmit hw dma buffer size).2.TxBdRing = dma.TxBdRing ∧
    (dma_transmit hw dma buffer size).2.RxBdRing = dma.RxBdRing ∧
    (dma_transmit hw dma buffer size).2.tx_buff = dma.tx_buff ∧
    (dma_transmit hw dma buffer size).2.log =
      dma.log ++ [.BdRingAlloc .tx DMA_TX_BD_CNT NULL XST_FAILURE] := by
  have hg : ¬ size > dma.params.descriptor_buff_size := by omega
  have hf' : dma.TxBdRing.FreeCnt < 1 := hf
  have hne : XST_FAILURE ≠ XST_SUCCESS := by decide
  simp [dma_transmit, hg, XAxiDma_BdRingAlloc, DMA_TX_BD_CNT, hf', dma_t.emit, hne]

/-- Both transmit slots posted: a third transmit is refused. -/
theorem transmit_saturated_witness :
    (dma_transmit hw_ok (ex_dma (ex_rx_ring ex_packet 0 0) (ex_tx_ring 0 0)) [1, 2, 3] 3).1 =
      (XAxiDma_BdRingAlloc (ex_tx_ring 0 0) DMA_TX_BD_CNT NULL).1 ∧
    (dma_transmit hw_ok (ex_dma (ex_rx_ring ex_packet 0 0) (ex_tx_ring 0 0)) [1, 2, 3] 3).1 =
      XST_FAILURE ∧
    (dma_transmit hw_ok (ex_dma (ex_rx_ring ex_packet 0 0) (ex_tx_ring 0 0)) [1, 2, 3] 3).1 ≠
      XST_SUCCESS ∧
    (dma_transmit hw_ok (ex_dma (ex_rx_ring ex_packet 0 0) (ex_tx_ring 0 0))
      [1, 2, 3] 3).2.TxBdRing = ex_tx_ring 0 0 ∧
    (dma_transmit hw_ok (ex_dma (ex_rx_ring ex_packet 0 0) (ex_tx_ring 0 0))
      [1, 2, 3] 3).2.RxBdRing = ex_rx_ring ex_packet 0 0 ∧
    (dma_transmit hw_ok (ex_dma (ex_rx_ring ex_packet 0 0) (ex_tx_ring 0 0))
      [1, 2, 3] 3).2.tx_buff = [0, 0, 0, 0, 0, 0, 0, 0] ∧
    (dma_transmit hw_ok (ex_dma (ex_rx_ring ex_packet 0 0) (ex_tx_ring 0 0))
      [1, 2, 3] 3).2.log = [] ++ [.BdRingAlloc .tx DMA_TX_BD_CNT NULL XST_FAILURE] :=
  transmit_saturated hw_ok (ex_dma (ex_rx_ring ex_packet 0 0) (ex_tx_ring 0 0)) [1, 2, 3] 3
    (by decide) (by decide)

/-- C5: when, inside `dma_transmit`, the commit fails after a successful
reserve (the vendor layer refuses it, or the reserved slot is not the next to
commit), `dma_transmit` returns the error of the commit and has given the slot
back within the call: the reserve, the commit and the release are the ring
operations of the call, the release succeeds, the counts of free, reserved,
posted and completed slots are as before the call, and so `free + posted +
completed` still equals `slot_count` if it did before. -/
theorem transmit_commit_failure_releases (hw : hw_t) (dma : dma_t) (buffer : List Nat)
    (size : Nat)
    (hs : size ≤ dma.params.descriptor_buff_size)
    (hf : DMA_TX_BD_CNT ≤ dma.TxBdRing.FreeCnt)
    (ha : hw.BdSetBufAddr = XST_SUCCESS)
    (h0 : 0 < size) (hm : size ≤ dma.TxBdRing.MaxTransferLen)
    (hfail : dma.TxBdRing.PreHead ≠ dma.TxBdRing.FreeHead ∨ hw.BdRingToHw ≠ XST_SUCCESS) :
    (dma_transmit hw dma buffer size).1 =
      (if dma.TxBdRing.PreHead ≠ dma.TxBdRing.FreeHead then XST_INVALID_PARAM
       else hw.BdRingToHw) ∧
    (dma_transmit hw dma buffer size).1 ≠ XST_SUCCESS ∧
    (dma_transmit hw dma buffer size).2.log = dma.log ++
      [.BdRingAlloc .tx DMA_TX_BD_CNT dma.TxBdRing.FreeHead XST_SUCCESS,
       .DCacheFlushRange dma.params.tx_buff_addr size,
       .BdRingToHw .tx DMA_TX_BD_CNT dma.TxBdRing.FreeHead (dma_transmit hw dma buffer size).1,
       .BdRingUnAlloc .tx DMA_TX_BD_CNT dma.TxBdRing.FreeHead XST_SUCCESS] ∧
    (dma_transmit hw dma buffer size).2.TxBdRing.FreeCnt = dma.TxBdRing.FreeCnt ∧
    (dma_transmit hw dma buffer size).2.TxBdRing.PreCnt = dma.TxBdRing.PreCnt ∧
    (dma_transmit hw dma buffer size).2.TxBdRing.HwCnt = dma.TxBdRing.HwCnt ∧
    (dma_transmit hw dma buffer size).2.TxBdRing.PostCnt = dma.TxBdRing.PostCnt ∧
    (dma_transmit hw dma buffer size).2.TxBdRing.AllCnt = dma.TxBdRing.AllCnt ∧
    (dma.TxBdRing.FreeCnt + dma.TxBdRing.HwCnt + dma.TxBdRing.PostCnt = dma.TxBdRing.AllCnt →
      (dma_transmit hw dma buffer size).2.TxBdRing.FreeCnt +
        (dma_transmit hw dma buffer size).2.TxBdRing.HwCnt +
        (dma_transmit hw dma buffer size).2.TxBdRing.PostCnt =
      (dma_transmit hw dma buffer size).2.TxBdRing.AllCnt) := by
  have hg : ¬ size > dma.params.descriptor_buff_size := by omega
  have hf' : ¬ dma.TxBdRing.FreeCnt < 1 := by unfold DMA_TX_BD_CNT at hf; omega
  have hf1 : 1 ≤ dma.TxBdRing.FreeCnt := hf
  have hl : ¬ (size = 0 ∨ size > dma.TxBdRing.MaxTransferLen) := by omega
  have hip : XST_INVALID_PARAM ≠ XST_SUCCESS := by decide
  by_cases hp : dma.TxBdRing.PreHead = dma.TxBdRing.FreeHead
  · have ht : hw.BdRingToHw ≠ XST_SUCCESS := by
      rcases hfail with h | h
      · exact absurd hp h
      · exact h
    simp only [dma_transmit, hg, if_false, XAxiDma_BdRingAlloc, DMA_TX_BD_CNT, hf',
      XAxiDma_BdSetBufAddr, ha, XAxiDma_BdSetLength, hl, XAxiDma_BdSetCtrl,
      XAxiDma_BdRingToHw, XAxiDma_BdRingUnAlloc, ht, hp, dma_t.emit, ne_eq,
      not_true_eq_false, not_false_eq_true, one_ne_zero, XAxiDma_BdRingSeekahead, if_true,
      XAxiDma_BdRingNext]
    simp [ht]
    omega
  · simp only [dma_transmit, hg, if_false, XAxiDma_BdRingAlloc, DMA_TX_BD_CNT, hf',
      XAxiDma_BdSetBufAddr, ha, XAxiDma_BdSetLength, hl, XAxiDma_BdSetCtrl,
      XAxiDma_BdRingToHw, XAxiDma_BdRingUnAlloc, hp, dma_t.emit, ne_eq,
      not_true_eq_false, not_false_eq_true, one_ne_zero, XAxiDma_BdRingSeekahead, if_true,
      hip, or_true, XAxiDma_BdRingNext]
    simp [hp, hip]
    omega

/-- A commit refused by the vendor layer on a ring with two free slots: the
error is returned and both slots are free again, with `free + posted +
completed` equal to the slot count. -/
theorem transmit_commit_failure_releases_witness :
    (dma_transmit hw_commit_refused (ex_dma (ex_rx_ring ex_packet 0 0) (ex_tx_ring 2 0))
      [1, 2, 3] 3).1 = XST_FAILURE ∧
    (dma_transmit hw_commit_refused (ex_dma (ex_rx_ring ex_packet 0 0) (ex_tx_ring 2 0))
      [1, 2, 3] 3).2.TxBdRing.FreeCnt = 2 ∧
    (dma_transmit hw_commit_refused (ex_dma (ex_rx_ring ex_packet 0 0) (ex_tx_ring 2 0))
      [1, 2, 3] 3).2.TxBdRing.FreeCnt +
    (dma_transmit hw_commit_refused (ex_dma (ex_rx_ring ex_packet 0 0) (ex_tx_ring 2 0))
      [1, 2, 3] 3).2.TxBdRing.HwCnt +
    (dma_transmit hw_commit_refused (ex_dma (ex_rx_ring ex_packet 0 0) (ex_tx_ring 2 0))
      [1, 2, 3] 3).2.TxBdRing.PostCnt =
    (dma_transmit hw_commit_refused (ex_dma (ex_rx_ring ex_packet 0 0) (ex_tx_ring 2 0))
      [1, 2, 3] 3).2.TxBdRing.AllCnt :=
  ⟨(transmit_commit_failure_releases hw_commit_refused
      (ex_dma (ex_rx_ring ex_packet 0 0) (ex_tx_ring 2 0)) [1, 2, 3] 3
      (by decide) (by decide) (by decide) (by decide) (by decide) (by decide)).1,
   (transmit_commit_failure_releases hw_commit_refused
      (ex_dma (ex_rx_ring ex_packet 0 0) (ex_tx_ring 2 0)) [1, 2, 3] 3
      (by decide) (by decide) (by decide) (by decide) (by decide) (by decide)).2.2.2.1,
   (transmit_commit_failure_releases hw_commit_refused
      (ex_dma (ex_rx_ring ex_packet 0 0) (ex_tx_ring 2 0)) [1, 2, 3] 3
      (by decide) (by decide) (by decide) (by decide) (by decide)
      (by decide)).2.2.2.2.2.2.2.2 (by decide)⟩

/-- C11: when the reserve of `dma_transmit` succeeds and then the buffer
address is refused, or the length is (it is zero or above the ring's
`MaxTransferLen`), `dma_transmit` returns that error without releasing the
descriptor: the reserve and the cache flush are the only calls of the
invocation, so there is neither a release nor a commit; on return the free
count of the transmit ring is one less than before, the reserved count one
more, and the posted and completed counts are as before. -/
theorem transmit_fill_failure_leaks (hw : hw_t) (dma : dma_t) (buffer : List Nat)
    (size : Nat)
    (hs : size ≤ dma.params.descriptor_buff_size)
    (hf : DMA_TX_BD_CNT ≤ dma.TxBdRing.FreeCnt)
    (hfail : hw.BdSetBufAddr ≠ XST_SUCCESS ∨ size = 0 ∨ size > dma.TxBdRing.MaxTransferLen) :
    (dma_transmit hw dma buffer size).1 =
      (if hw.BdSetBufAddr ≠ XST_SUCCESS then hw.BdSetBufAddr else XST_INVALID_PARAM) ∧
    (dma_transmit hw dma buffer size).1 ≠ XST_SUCCESS ∧
    (dma_transmit hw dma buffer size).2.log = dma.log ++
      [.BdRingAlloc .tx DMA_TX_BD_CNT dma.TxBdRing.FreeHead XST_SUCCESS,
       .DCacheFlushRange dma.params.tx_buff_addr size] ∧
    (dma_transmit hw dma buffer size).2.TxBdRing.FreeCnt + 1 = dma.TxBdRing.FreeCnt ∧
    (dma_transmit hw dma buffer size).2.TxBdRing.PreCnt = dma.TxBdRing.PreCnt + 1 ∧
    (dma_transmit hw dma buffer size).2.TxBdRing.HwCnt = dma.TxBdRing.HwCnt ∧
    (dma_transmit hw dma buffer size).2.TxBdRing.PostCnt = dma.TxBdRing.PostCnt ∧
    (dma_transmit hw dma buffer size).2.TxBdRing.AllCnt = dma.TxBdRing.AllCnt := by
  have hg : ¬ size > dma.params.descriptor_buff_size := by omega
  have hf' : ¬ dma.TxBdRing.FreeCnt < 1 := by unfold DMA_TX_BD_CNT at hf; omega
  have hf1 : 1 ≤ dma.TxBdRing.FreeCnt := hf
  have hip : XST_INVALID_PARAM ≠ XST_SUCCESS := by decide
  by_cases ha : hw.BdSetBufAddr = XST_SUCCESS
  · have hl : size = 0 ∨ size > dma.TxBdRing.MaxTransferLen := by
      rcases hfail with h | h
      · exact absurd ha h
      · exact h
    simp only [dma_transmit, hg, if_false, XAxiDma_BdRingAlloc, DMA_TX_BD_CNT, hf',
      XAxiDma_BdSetBufAddr, ha, XAxiDma_BdSetLength, hl, dma_t.emit, ne_eq,
      not_true_eq_false, not_false_eq_true, one_ne_zero, if_true, hip]
    simp [hip]
    omega
  · simp only [dma_transmit, hg, if_false, XAxiDma_BdRingAlloc, DMA_TX_BD_CNT, hf',
      XAxiDma_BdSetBufAddr, ha, dma_t.emit, ne_eq, not_true_eq_false, not_false_eq_true,
      one_ne_zero, if_true]
    simp [ha]
    omega

/-- A transmit of 2000 bytes on a ring that takes 1023 bytes per descriptor,
and a transmit whose buffer address is refused: the error is returned, one of
the two slots stays reserved, and nothing is posted. -/
theorem transmit_fill_failure_leaks_witness :
    ((dma_transmit hw_ok (ex_dma (ex_rx_ring ex_packet 0 0) ex_tx_ring_narrow)
        (List.replicate 2000 7) 2000).1 = XST_INVALID_PARAM ∧
      (dma_transmit hw_ok (ex_dma (ex_rx_ring ex_packet 0 0) ex_tx_ring_narrow)
        (List.replicate 2000 7) 2000).2.TxBdRing.FreeCnt + 1 = 2 ∧
      (dma_transmit hw_ok (ex_dma (ex_rx_ring ex_packet 0 0) ex_tx_ring_narrow)
        (List.replicate 2000 7) 2000).2.TxBdRing.HwCnt = 0) ∧
    ((dma_transmit hw_addr_refused (ex_dma (ex_rx_ring ex_packet 0 0) (ex_tx_ring 2 0))
        [1, 2, 3] 3).1 = XST_INVALID_PARAM ∧
      (dma_transmit hw_addr_refused (ex_dma (ex_rx_ring ex_packet 0 0) (ex_tx_ring 2 0))
        [1, 2, 3] 3).2.TxBdRing.FreeCnt + 1 = 2 ∧
      (dma_transmit hw_addr_refused (ex_dma (ex_rx_ring ex_packet 0 0) (ex_tx_ring 2 0))
        [1, 2, 3] 3).2.TxBdRing.HwCnt = 0) :=
  ⟨⟨(transmit_fill_failure_leaks hw_ok
        (ex_dma (ex_rx_ring ex_packet 0 0) ex_tx_ring_narrow) (List.replicate 2000 7) 2000
        (by decide) (by decide) (by decide)).1,
    (transmit_fill_failure_leaks hw_ok
        (ex_dma (ex_rx_ring ex_packet 0 0) ex_tx_ring_narrow) (List.replicate 2000 7) 2000
        (by decide) (by decide) (by decide)).2.2.2.1,
    (transmit_fill_failure_leaks hw_ok
        (ex_dma (ex_rx_ring ex_packet 0 0) ex_tx_ring_narrow) (List.replicate 2000 7) 2000
        (by decide) (by decide) (by decide)).2.2.2.2.2.1⟩,
   ⟨(transmit_fill_failure_leaks hw_addr_refused
        (ex_dma (ex_rx_ring ex_packet 0 0) (ex_tx_ring 2 0)) [1, 2, 3] 3
        (by decide) (by decide) (by decide)).1,
    (transmit_fill_failure_leaks hw_addr_refused
        (ex_dma (ex_rx_ring ex_packet 0 0) (ex_tx_ring 2 0)) [1, 2, 3] 3
        (by decide) (by decide) (by decide)).2.2.2.1,
    (transmit_fill_failure_leaks hw_addr_refused
        (ex_dma (ex_rx_ring ex_packet 0 0) (ex_tx_ring 2 0)) [1, 2, 3] 3
        (by decide) (by decide) (by decide)).2.2.2.2.2.1⟩⟩

/-! ## The reset wait -/

theorem irq_all_of_error (irq : Nat) (h : irq &&& XAXIDMA_IRQ_ERROR_MASK ≠ 0) :
    irq &&& XAXIDMA_IRQ_ALL_MASK ≠ 0 := by
  intro h0
  apply h
  have e : XAXIDMA_IRQ_ERROR_MASK = XAXIDMA_IRQ_ALL_MASK &&& XAXIDMA_IRQ_ERROR_MASK := by
    decide
  rw [e, ← Nat.land_assoc, h0]
  simp

theorem polls_append (a b : List Event) : polls (a ++ b) = polls a ++ polls b := by
  induction a with
  | nil => rfl
  | cons e es ih => cases e <;> simp [polls, ih]

theorem unpolled_append (a b : List Event) :
    unpolled (a ++ b) = unpolled a ++ unpolled b := by
  induction a with
  | nil => rfl
  | cons e es ih => cases e <;> simp [unpolled, ih]

theorem polls_map (l : List Bool) : polls (l.map Event.ResetIsDone) = l := by
  induction l with
  | nil => rfl
  | cons a l ih => simp [polls, ih]

theorem unpolled_map (l : List Bool) : unpolled (l.map Event.ResetIsDone) = [] := by
  induction l with
  | nil => rfl
  | cons a l ih => simpa [unpolled] using ih

theorem reset_polls_length (done : Nat → Bool) (t i : Nat) :
    (reset_polls done t i).length ≤ t := by
  induction t generalizing i with
  | zero => simp [reset_polls]
  | succ t ih =>
    simp only [reset_polls]
    by_cases h : done i = true
    · simp [h]
    · have := ih (i + 1)
      simp [h]
      omega

theorem reset_polls_done (done : Nat → Bool) (j t i : Nat) (hj : j < t)
    (hf : ∀ m < j, done (i + m) = false) (ht : done (i + j) = true) :
    reset_polls done t i = List.replicate j false ++ [true] := by
  induction j generalizing t i with
  | zero =>
    cases t with
    | zero => omega
    | succ t =>
      have h : done i = true := by simpa using ht
      simp [reset_polls, h]
  | succ j ih =>
    cases t with
    | zero => omega
    | succ t =>
      have h : done i = false := by simpa using hf 0 (by omega)
      have hrec := ih t (i + 1) (by omega)
        (fun m hm => by have := hf (m + 1) (by omega); rwa [show i + (m + 1) = i + 1 + m by omega] at this)
        (by rwa [show i + (j + 1) = i + 1 + j by omega] at ht)
      simp [reset_polls, h, hrec, List.replicate_succ]

theorem reset_polls_never (done : Nat → Bool) (t i : Nat)
    (hf : ∀ m < t, done (i + m) = false) :
    reset_polls done t i = List.replicate t false := by
  induction t generalizing i with
  | zero => rfl
  | succ t ih =>
    have h : done i = false := by simpa using hf 0 (by omega)
    have hrec := ih (i + 1)
      (fun m hm => by have := hf (m + 1) (by omega); rwa [show i + (m + 1) = i + 1 + m by omega] at this)
    simp [reset_polls, h, hrec, List.replicate_succ]

/-- The drain branch of the transmit handler reads nothing from the log. -/
theorem tx_service_log (dma : dma_t) :
    tx_service dma =
      { tx_service dma.unlogged with log := dma.log ++ (tx_service dma.unlogged).log } := by
  simp [tx_service, dma_t.emit, dma_t.unlogged]

theorem tx_service_events (dma : dma_t) :
    ∃ k p s, (tx_service dma.unlogged).log =
      [.IntDisable .tx XAXIDMA_IRQ_ALL_MASK, .BdRingFromHw .tx XAXIDMA_ALL_BDS k p,
        .BdRingFree .tx k p s, .IntEnable .tx XAXIDMA_IRQ_ALL_MASK] :=
  ⟨_, _, _, rfl⟩

/-- The transmit handler on pending interrupt bits: what it does after the
acknowledgement is the reset wait, when `ERROR` is pending, and then the drain
branch, when `DELAY` or `IOC` is pending. -/
theorem tx_handler_eq (done : Nat → Bool) (dma : dma_t)
    (h : XAxiDma_BdRingGetIrq dma.TxBdRing &&& XAXIDMA_IRQ_ALL_MASK ≠ 0) :
    dma_tx_intr_handler done dma =
      { (if XAxiDma_BdRingGetIrq dma.TxBdRing &&&
            (XAXIDMA_IRQ_DELAY_MASK ||| XAXIDMA_IRQ_IOC_MASK) ≠ 0
          then tx_service (tx_acked dma).unlogged else (tx_acked dma).unlogged) with
        log := dma.log ++ ([.AckIrq .tx (XAxiDma_BdRingGetIrq dma.TxBdRing)] ++
          (if XAxiDma_BdRingGetIrq dma.TxBdRing &&& XAXIDMA_IRQ_ERROR_MASK ≠ 0
            then .Reset :: (reset_polls done 10000 0).map .ResetIsDone else []) ++
          (if XAxiDma_BdRingGetIrq dma.TxBdRing &&&
              (XAXIDMA_IRQ_DELAY_MASK ||| XAXIDMA_IRQ_IOC_MASK) ≠ 0
            then (tx_service (tx_acked dma).unlogged).log else [])) } := by
  unfold dma_tx_intr_handler
  simp only [h, if_false, reset_wait_eq]
  by_cases he : XAxiDma_BdRingGetIrq dma.TxBdRing &&& XAXIDMA_IRQ_ERROR_MASK = 0
  · by_cases hd : XAxiDma_BdRingGetIrq dma.TxBdRing &&&
        (XAXIDMA_IRQ_DELAY_MASK ||| XAXIDMA_IRQ_IOC_MASK) = 0
    · simp [he, hd, tx_acked, dma_t.emit, dma_t.unlogged]
    · simp only [he, hd, ne_eq, not_true_eq_false, not_false_eq_true, if_true, if_false]
      rw [tx_service_log]
      simp [tx_acked, dma_t.emit, dma_t.unlogged]
  · by_cases hd : XAxiDma_BdRingGetIrq dma.TxBdRing &&&
        (XAXIDMA_IRQ_DELAY_MASK ||| XAXIDMA_IRQ_IOC_MASK) = 0
    · simp [he, hd, tx_acked, dma_t.emit, dma_t.unlogged]
    · simp only [he, hd, ne_eq, not_true_eq_false, not_false_eq_true, if_true, if_false]
      rw [tx_service_log]
      simp [tx_acked, dma_t.emit, dma_t.unlogged]

theorem tx_events_eq (done : Nat → Bool) (dma : dma_t)
    (h : XAxiDma_BdRingGetIrq dma.TxBdRing &&& XAXIDMA_IRQ_ALL_MASK ≠ 0) :
    tx_events done dma =
      [.AckIrq .tx (XAxiDma_BdRingGetIrq dma.TxBdRing)] ++
        (if XAxiDma_BdRingGetIrq dma.TxBdRing &&& XAXIDMA_IRQ_ERROR_MASK ≠ 0
          then .Reset :: (reset_polls done 10000 0).map .ResetIsDone else []) ++
        (if XAxiDma_BdRingGetIrq dma.TxBdRing &&&
            (XAXIDMA_IRQ_DELAY_MASK ||| XAXIDMA_IRQ_IOC_MASK) ≠ 0
          then (tx_service (tx_acked dma).unlogged).log else []) := by
  simp [tx_events, tx_handler_eq done dma h]

theorem tx_events_none (done : Nat → Bool) (dma : dma_t)
    (h : XAxiDma_BdRingGetIrq dma.TxBdRing &&& XAXIDMA_IRQ_ALL_MASK = 0) :
    tx_events done dma = [.AckIrq .tx (XAxiDma_BdRingGetIrq dma.TxBdRing)] := by
  simp [tx_events, dma_tx_intr_handler, h, tx_acked, dma_t.emit]

theorem rx_handler_error (hw : hw_t) (done : Nat → Bool) (dma : dma_t)
    (he : XAxiDma_BdRingGetIrq dma.RxBdRing &&& XAXIDMA_IRQ_ERROR_MASK ≠ 0) :
    (dma_rx_intr_handler hw done dma).unlogged = (rx_acked dma).unlogged := by
  have h := irq_all_of_error _ he
  simp [dma_rx_intr_handler, h, he, reset_wait_eq, dma_t.emit, dma_t.unlogged]

/-- C10: on an `ERROR` interrupt the reset-confirmation loop of
`dma_rx_intr_handler` and of `dma_tx_intr_handler` ends whatever the reset-done
flag answers: it polls the flag at most 10000 times; it stops at the first
poll that reports done; when none of the 10000 polls reports done it falls
through, and no timeout is signalled: the events other than the polls, and the
rings, parameters and staging buffer the handler leaves, are the same for every
behaviour of the flag. -/
theorem reset_wait_bounded (hw : hw_t) (ResetIsDone : Nat → Bool) (dma : dma_t) :
    (XAxiDma_BdRingGetIrq dma.RxBdRing &&& XAXIDMA_IRQ_ERROR_MASK ≠ 0 →
      (polls (rx_events hw ResetIsDone dma)).length ≤ 10000 ∧
      (∀ i < 10000, ResetIsDone i = true → (∀ j < i, ResetIsDone j = false) →
        polls (rx_events hw ResetIsDone dma) = List.replicate i false ++ [true]) ∧
      ((∀ i < 10000, ResetIsDone i = false) →
        polls (rx_events hw ResetIsDone dma) = List.replicate 10000 false) ∧
      (∀ other : Nat → Bool,
        unpolled (rx_events hw other dma) = unpolled (rx_events hw ResetIsDone dma) ∧
        (dma_rx_intr_handler hw other dma).unlogged =
          (dma_rx_intr_handler hw ResetIsDone dma).unlogged)) ∧
    (XAxiDma_BdRingGetIrq dma.TxBdRing &&& XAXIDMA_IRQ_ERROR_MASK ≠ 0 →
      (polls (tx_events ResetIsDone dma)).length ≤ 10000 ∧
      (∀ i < 10000, ResetIsDone i = true → (∀ j < i, ResetIsDone j = false) →
        polls (tx_events ResetIsDone dma) = List.replicate i false ++ [true]) ∧
      ((∀ i < 10000, ResetIsDone i = false) →
        polls (tx_events ResetIsDone dma) = List.replicate 10000 false) ∧
      (∀ other : Nat → Bool,
        unpolled (tx_events other dma) = unpolled (tx_events ResetIsDone dma) ∧
        (dma_tx_intr_handler other dma).unlogged =
          (dma_tx_intr_handler ResetIsDone dma).unlogged)) := by
  constructor
  · intro he
    have ha := irq_all_of_error _ he
    have hp : ∀ d : Nat → Bool, polls (rx_events hw d dma) = reset_polls d 10000 0 := by
      intro d
      rw [rx_events_error hw d dma ha he, polls_append, polls_map]
      rfl
    have hu : ∀ d : Nat → Bool, unpolled (rx_events hw d dma) =
        [.AckIrq .rx (XAxiDma_BdRingGetIrq dma.RxBdRing), .Reset] := by
      intro d
      rw [rx_events_error hw d dma ha he, unpolled_append, unpolled_map]
      rfl
    refine ⟨?_, ?_, ?_, ?_⟩
    · rw [hp]; exact reset_polls_length _ _ _
    · intro i hi ht hf
      rw [hp]
      exact reset_polls_done ResetIsDone i 10000 0 hi (by simpa using hf) (by simpa using ht)
    · intro hf
      rw [hp]
      exact reset_polls_never ResetIsDone 10000 0 (by simpa using hf)
    · intro other
      exact ⟨by rw [hu, hu], by rw [rx_handler_error hw other dma he,
        rx_handler_error hw ResetIsDone dma he]⟩
  · intro he
    have ha := irq_all_of_error _ he
    have hp : ∀ d : Nat → Bool, polls (tx_events d dma) = reset_polls d 10000 0 := by
      intro d
      rw [tx_events_eq d dma ha, if_pos he]
      obtain ⟨k, p, s, hs⟩ := tx_service_events (tx_acked dma)
      rw [hs]
      generalize reset_polls d 10000 0 = l
      by_cases hd : XAxiDma_BdRingGetIrq dma.TxBdRing &&&
          (XAXIDMA_IRQ_DELAY_MASK ||| XAXIDMA_IRQ_IOC_MASK) ≠ 0
      · simp [hd, polls_append, polls, polls_map]
      · simp [hd, polls_append, polls, polls_map]
    have hu : ∀ d : Nat → Bool, unpolled (tx_events d dma) =
        unpolled (tx_events ResetIsDone dma) := by
      intro d
      rw [tx_events_eq d dma ha, tx_events_eq ResetIsDone dma ha]
      simp only [if_pos he]
      generalize reset_polls d 10000 0 = l
      generalize reset_polls ResetIsDone 10000 0 = l2
      simp [unpolled_append, unpolled, unpolled_map]
    refine ⟨?_, ?_, ?_, ?_⟩
    · rw [hp]; exact reset_polls_length _ _ _
    · intro i hi ht hf
      rw [hp]
      exact reset_polls_done ResetIsDone i 10000 0 hi (by simpa using hf) (by simpa using ht)
    · intro hf
      rw [hp]
      exact reset_polls_never ResetIsDone 10000 0 (by simpa using hf)
    · intro other
      refine ⟨hu other, ?_⟩
      rw [tx_handler_eq other dma ha, tx_handler_eq ResetIsDone dma ha]
      rfl

/-- An `ERROR` interrupt on either ring: a flag that reports done at its fourth
poll is polled four times, a flag that never reports done 10000 times. -/
theorem reset_wait_bounded_witness :
    polls (rx_events hw_ok done_at_3
      (ex_dma (ex_rx_ring ex_packet 0 0x4000) (ex_tx_ring 2 0x5000))) =
      List.replicate 3 false ++ [true] ∧
    polls (rx_events hw_ok never_done
      (ex_dma (ex_rx_ring ex_packet 0 0x4000) (ex_tx_ring 2 0x5000))) =
      List.replicate 10000 false ∧
    polls (tx_events done_at_3
      (ex_dma (ex_rx_ring ex_packet 0 0x4000) (ex_tx_ring 2 0x5000))) =
      List.replicate 3 false ++ [true] ∧
    polls (tx_events never_done
      (ex_dma (ex_rx_ring ex_packet 0 0x4000) (ex_tx_ring 2 0x5000))) =
      List.replicate 10000 false :=
  ⟨((reset_wait_bounded hw_ok done_at_3
      (ex_dma (ex_rx_ring ex_packet 0 0x4000) (ex_tx_ring 2 0x5000))).1
      (by decide)).2.1 3 (by decide) (by decide) (by decide),
   ((reset_wait_bounded hw_ok never_done
      (ex_dma (ex_rx_ring ex_packet 0 0x4000) (ex_tx_ring 2 0x5000))).1
      (by decide)).2.2.1 (fun _ _ => rfl),
   ((reset_wait_bounded hw_ok done_at_3
      (ex_dma (ex_rx_ring ex_packet 0 0x4000) (ex_tx_ring 2 0x5000))).2
      (by decide)).2.1 3 (by decide) (by decide) (by decide),
   ((reset_wait_bounded hw_ok never_done
      (ex_dma (ex_rx_ring ex_packet 0 0x4000) (ex_tx_ring 2 0x5000))).2
      (by decide)).2.2.1 (fun _ _ => rfl)⟩

/-! ## Interrupt masking -/

/-- When every disabling in a list of events is that of one mask, and the
list ends with the enabling of that mask, each disabling is followed by the
enabling of its mask. -/
theorem paired_of_last (ev : List Event) (c0 : Chan) (m0 : Nat)
    (hall : ∀ c m, Event.IntDisable c m ∈ ev → c = c0 ∧ m = m0)
    (hlast : ∃ init, ev = init ++ [.IntEnable c0 m0]) :
    ∀ pre c m post, ev = pre ++ .IntDisable c m :: post → .IntEnable c m ∈ post := by
  intro pre c m post h
  obtain ⟨init, hi⟩ := hlast
  have hl : ev.getLast? = some (.IntEnable c0 m0) := by rw [hi]; exact List.getLast?_concat _
  subst h
  obtain ⟨rfl, rfl⟩ := hall c m (by simp)
  cases post with
  | nil =>
    rw [List.getLast?_concat] at hl
    cases hl
  | cons x xs =>
    have h1 : (x :: xs).getLast? = some ((x :: xs).getLast (by simp)) :=
      List.getLast?_eq_getLast _ _
    rw [List.getLast?_append, List.getLast?_cons_cons, h1] at hl
    change some _ = _ at hl
    exact List.mem_of_getLast?_eq_some (h1.trans hl)

theorem paired_of_none (ev : List Event) (hnone : ∀ c m, Event.IntDisable c m ∉ ev) :
    ∀ pre c m post, ev = pre ++ .IntDisable c m :: post → .IntEnable c m ∈ post := by
  intro pre c m post h
  exact absurd (by rw [h]; simp) (hnone c m)

theorem rx_body_events (bd : XAxiDma_Bd) (p : dma_pkt_t) (e : Event)
    (h : e ∈ (rx_body bd p []).2) :
    (∃ a n, e = .DCacheInvalidateRange a n) ∨ ∃ b s, e = .callback b s := by
  unfold rx_body at h
  simp only [] at h
  split at h
  · simp only [List.nil_append, List.mem_cons, List.mem_singleton, List.not_mem_nil,
      or_false] at h
    rcases h with h | h
    · exact Or.inl ⟨_, _, h⟩
    · exact Or.inr ⟨_, _, h⟩
  · simp at h

theorem rx_fold_events (l : List XAxiDma_Bd) (p : dma_pkt_t) (e : Event)
    (h : e ∈ (rx_fold l p []).2) :
    (∃ a n, e = .DCacheInvalidateRange a n) ∨ ∃ b s, e = .callback b s := by
  induction l generalizing p with
  | nil => simp [rx_fold] at h
  | cons x xs ih =>
    rw [rx_fold_cons, rx_fold_log] at h
    simp only [List.mem_append] at h
    rcases h with h | h
    · exact rx_body_events x p e h
    · exact ih _ h

theorem rx_no_disable_of_empty (hw : hw_t) (done : Nat → Bool) (dma : dma_t)
    (hnil : ¬ rx_drains dma ∨ rx_drained dma = []) :
    ∀ c m, Event.IntDisable c m ∉ rx_events hw done dma := by
  intro c m
  rcases rx_irq_cases dma with h | ⟨h, h2⟩ | ⟨h, h2, h3⟩ | h
  · rw [rx_events_none hw done dma h]; simp
  · rw [rx_events_error hw done dma h h2]; simp
  · rw [rx_events_idle hw done dma h h2 h3]; simp
  · rcases hnil with hn | hn
    · exact absurd h hn
    · obtain ⟨p, hp⟩ := rx_events_empty hw done dma h hn
      rw [hp]; simp

theorem rx_paired (hw : hw_t) (done : Nat → Bool) (dma : dma_t) :
    ∀ pre c m post, rx_events hw done dma = pre ++ .IntDisable c m :: post →
      .IntEnable c m ∈ post := by
  by_cases h : rx_drains dma
  · by_cases hn : rx_drained dma = []
    · exact paired_of_none _ (rx_no_disable_of_empty hw done dma (Or.inr hn))
    · obtain ⟨k, p, s1, n2, p2, s2, s3, hp⟩ := rx_events_drain hw done dma h hn
      apply paired_of_last _ .rx XAXIDMA_IRQ_ALL_MASK
      · intro c m hm
        rw [hp] at hm
        rcases List.mem_append.1 hm with h1 | h1
        · rcases List.mem_append.1 h1 with h2 | h2
          · simpa using h2
          · rcases rx_fold_events _ _ _ h2 with ⟨a, n, e⟩ | ⟨b, s, e⟩ <;> cases e
        · simp at h1
      · exact ⟨[.AckIrq .rx (XAxiDma_BdRingGetIrq dma.RxBdRing),
            .BdRingFromHw .rx XAXIDMA_ALL_BDS k p, .IntDisable .rx XAXIDMA_IRQ_ALL_MASK] ++
          (rx_fold (rx_drained dma) ⟨NULL, 0, 0⟩ []).2 ++
          [.BdRingFree .rx k p s1, .BdRingAlloc .rx n2 p2 s2, .BdRingToHw .rx n2 p2 s3],
          by rw [hp]; simp⟩
  · exact paired_of_none _ (rx_no_disable_of_empty hw done dma (Or.inl h))

theorem tx_paired (done : Nat → Bool) (dma : dma_t) :
    ∀ pre c m post, tx_events done dma = pre ++ .IntDisable c m :: post →
      .IntEnable c m ∈ post := by
  by_cases h : XAxiDma_BdRingGetIrq dma.TxBdRing &&& XAXIDMA_IRQ_ALL_MASK = 0
  · apply paired_of_none
    intro c m
    rw [tx_events_none done dma h]; simp
  · obtain ⟨k, p, s, hs⟩ := tx_service_events (tx_acked dma)
    by_cases hd : XAxiDma_BdRingGetIrq dma.TxBdRing &&&
        (XAXIDMA_IRQ_DELAY_MASK ||| XAXIDMA_IRQ_IOC_MASK) ≠ 0
    · apply paired_of_last _ .tx XAXIDMA_IRQ_ALL_MASK
      · intro c m hm
        rw [tx_events_eq done dma h, hs, if_pos hd] at hm
        by_cases he : XAxiDma_BdRingGetIrq dma.TxBdRing &&& XAXIDMA_IRQ_ERROR_MASK ≠ 0
        · simp [he] at hm
          exact hm
        · simp [he] at hm
          exact hm
      · exact ⟨_, by rw [tx_events_eq done dma h, hs, if_pos hd]; exact
          (List.append_assoc _ [Event.IntDisable Chan.tx XAXIDMA_IRQ_ALL_MASK,
            Event.BdRingFromHw Chan.tx XAXIDMA_ALL_BDS k p, Event.BdRingFree Chan.tx k p s]
            [Event.IntEnable Chan.tx XAXIDMA_IRQ_ALL_MASK]).symm⟩
    · apply paired_of_none
      intro c m
      rw [tx_events_eq done dma h, if_neg hd]
      by_cases he : XAxiDma_BdRingGetIrq dma.TxBdRing &&& XAXIDMA_IRQ_ERROR_MASK ≠ 0
      · simp [he]
      · simp [he]

/-- C7: in every invocation of `dma_rx_intr_handler` and of
`dma_tx_intr_handler`, each disabling of a ring's interrupts is followed, before
the handler returns, by the enabling of the same ring and mask; and a receive
invocation that finds no completed descriptor does not disable the interrupts
at all. -/
theorem intr_disable_paired (hw : hw_t) (ResetIsDone : Nat → Bool) (dma : dma_t) :
    (∀ pre c m post, rx_events hw ResetIsDone dma = pre ++ .IntDisable c m :: post →
      .IntEnable c m ∈ post) ∧
    (∀ pre c m post, tx_events ResetIsDone dma = pre ++ .IntDisable c m :: post →
      .IntEnable c m ∈ post) ∧
    (rx_drained dma = [] → ∀ c m, Event.IntDisable c m ∉ rx_events hw ResetIsDone dma) :=
  ⟨rx_paired hw ResetIsDone dma, tx_paired ResetIsDone dma,
   fun h => rx_no_disable_of_empty hw ResetIsDone dma (Or.inr h)⟩

/-- A receive drain of the batch `[SOF, EOF]`, a transmit completion, and a
receive interrupt that finds no completed descriptor. -/
theorem intr_disable_paired_witness :
    Event.IntEnable .rx XAXIDMA_IRQ_ALL_MASK ∈
      [Event.DCacheInvalidateRange 0x100800 2058, .callback 0x100000 2058,
        .BdRingFree .rx 2 0 XST_SUCCESS, .BdRingAlloc .rx 2 0 XST_SUCCESS,
        .BdRingToHw .rx 2 0 XST_SUCCESS, .IntEnable .rx XAXIDMA_IRQ_ALL_MASK] ∧
    Event.IntEnable .tx XAXIDMA_IRQ_ALL_MASK ∈
      [Event.BdRingFromHw .tx XAXIDMA_ALL_BDS 0 NULL, .BdRingFree .tx 0 NULL XST_SUCCESS,
        .IntEnable .tx XAXIDMA_IRQ_ALL_MASK] ∧
    (∀ c m, Event.IntDisable c m ∉ rx_events hw_ok never_done
      (ex_dma (ex_rx_ring ex_pending 0 0x1000) (ex_tx_ring 2 0))) :=
  ⟨(intr_disable_paired hw_ok never_done
      (ex_dma (ex_rx_ring ex_two 0 0x1000) (ex_tx_ring 2 0x1000))).1
      [.AckIrq .rx 0x1000, .BdRingFromHw .rx XAXIDMA_ALL_BDS 2 0] .rx XAXIDMA_IRQ_ALL_MASK _
      (by decide),
   (intr_disable_paired hw_ok never_done
      (ex_dma (ex_rx_ring ex_two 0 0x1000) (ex_tx_ring 2 0x1000))).2.1
      [.AckIrq .tx 0x1000] .tx XAXIDMA_IRQ_ALL_MASK _ (by decide),
   (intr_disable_paired hw_ok never_done
      (ex_dma (ex_rx_ring ex_pending 0 0x1000) (ex_tx_ring 2 0))).2.2 (by decide)⟩

/-! ## Re-provisioning of the receive ring -/

theorem next_lt (ring : XAxiDma_BdRing) (bd : Nat) (h : 0 < ring.AllCnt) :
    XAxiDma_BdRingNext ring bd < ring.AllCnt := by
  unfold XAxiDma_BdRingNext
  split <;> omega

theorem seekahead_lt (ring : XAxiDma_BdRing) (n bd : Nat) (h : 0 < ring.AllCnt)
    (hb : bd < ring.AllCnt) : XAxiDma_BdRingSeekahead ring n bd < ring.AllCnt := by
  induction n generalizing bd with
  | zero => exact hb
  | succ n ih => exact ih _ (next_lt ring bd h)

theorem seekahead_congr (r1 r2 : XAxiDma_BdRing) (h : r1.AllCnt = r2.AllCnt) (n bd : Nat) :
    XAxiDma_BdRingSeekahead r1 n bd = XAxiDma_BdRingSeekahead r2 n bd := by
  induction n generalizing bd with
  | zero => rfl
  | succ n ih => simp [XAxiDma_BdRingSeekahead, XAxiDma_BdRingNext, h, ih]

theorem completed_le (ring : XAxiDma_BdRing) (n bd : Nat) :
    XAxiDma_BdRingCompleted ring n bd ≤ n := by
  induction n generalizing bd with
  | zero => simp [XAxiDma_BdRingCompleted]
  | succ n ih =>
    simp only [XAxiDma_BdRingCompleted]
    split
    · have := ih (XAxiDma_BdRingNext ring bd); omega
    · omega

theorem walk_length (ring : XAxiDma_BdRing) (n bd : Nat) :
    (XAxiDma_BdRingWalk ring n bd).length = n := by
  induction n generalizing bd with
  | zero => rfl
  | succ n ih => simp [XAxiDma_BdRingWalk, ih]

theorem rx_drained_length (dma : dma_t) :
    (rx_drained dma).length =
      (XAxiDma_BdRingFromHw (rx_acked dma).RxBdRing XAXIDMA_ALL_BDS).1 := by
  simp [rx_drained, walk_length]

theorem fromHw_count_le (ring : XAxiDma_BdRing) (lim : Nat) :
    (XAxiDma_BdRingFromHw ring lim).1 ≤ ring.HwCnt := by
  have := completed_le ring (min ring.HwCnt lim) ring.HwHead
  simp only [XAxiDma_BdRingFromHw]
  split
  · simp
  · show _ ≤ _
    omega

theorem fromHw_spec (ring : XAxiDma_BdRing) (lim : Nat) :
    ∃ k, k ≤ ring.HwCnt ∧ XAxiDma_BdRingFromHw ring lim =
      if k = 0 then (0, ring, NULL)
      else (k, { ring with
                  HwHead := XAxiDma_BdRingSeekahead ring k ring.HwHead
                  HwCnt := ring.HwCnt - k
                  PostCnt := ring.PostCnt + k }, ring.HwHead) :=
  ⟨XAxiDma_BdRingCompleted ring (min ring.HwCnt lim) ring.HwHead,
   Nat.le_trans (completed_le _ _ _) (Nat.min_le_left _ _), rfl⟩

/-- One drain of the receive ring in its steady state, with the commit
accepted: the ring operations and the ring the handler leaves. -/
theorem rx_service_steady (hw : hw_t) (dma : dma_t)
    (hinv : rx_ring_posted dma.RxBdRing) (hok : hw.BdRingToHw = XST_SUCCESS)
    (hk : (XAxiDma_BdRingFromHw dma.RxBdRing XAXIDMA_ALL_BDS).1 ≠ 0) :
    (rx_service hw dma).log = dma.log ++
      ([.BdRingFromHw .rx XAXIDMA_ALL_BDS
          (XAxiDma_BdRingFromHw dma.RxBdRing XAXIDMA_ALL_BDS).1 dma.RxBdRing.HwHead,
        .IntDisable .rx XAXIDMA_IRQ_ALL_MASK] ++
      (rx_fold ((XAxiDma_BdRingWalk (XAxiDma_BdRingFromHw dma.RxBdRing XAXIDMA_ALL_BDS).2.1
            (XAxiDma_BdRingFromHw dma.RxBdRing XAXIDMA_ALL_BDS).1
            (XAxiDma_BdRingFromHw dma.RxBdRing XAXIDMA_ALL_BDS).2.2).map
          (XAxiDma_BdRingFromHw dma.RxBdRing XAXIDMA_ALL_BDS).2.1.slot) ⟨NULL, 0, 0⟩ []).2 ++
      [.BdRingFree .rx (XAxiDma_BdRingFromHw dma.RxBdRing XAXIDMA_ALL_BDS).1
          dma.RxBdRing.HwHead XST_SUCCESS,
        .BdRingAlloc .rx (XAxiDma_BdRingFromHw dma.RxBdRing XAXIDMA_ALL_BDS).1
          dma.RxBdRing.HwHead XST_SUCCESS,
        .BdRingToHw .rx (XAxiDma_BdRingFromHw dma.RxBdRing XAXIDMA_ALL_BDS).1
          dma.RxBdRing.HwHead XST_SUCCESS,
        .IntEnable .rx XAXIDMA_IRQ_ALL_MASK]) ∧
    (rx_service hw dma).RxBdRing.Bds = dma.RxBdRing.Bds ∧
    rx_ring_posted (rx_service hw dma).RxBdRing := by
  obtain ⟨h0, h1, h2, h3, h4, h5, h6, h7, h8⟩ := hinv
  obtain ⟨k, hle, hF⟩ := fromHw_spec dma.RxBdRing XAXIDMA_ALL_BDS
  have hk0 : k ≠ 0 := by
    intro h
    rw [hF, if_pos h] at hk
    exact hk rfl
  rw [if_neg hk0] at hF
  have hlt := seekahead_lt dma.RxBdRing k dma.RxBdRing.HwHead h0 h5
  have hk1 : ¬ k < k := by omega
  have hs : ∀ r : XAxiDma_BdRing, r.AllCnt = dma.RxBdRing.AllCnt →
      XAxiDma_BdRingSeekahead r k dma.RxBdRing.HwHead =
        XAxiDma_BdRingSeekahead dma.RxBdRing k dma.RxBdRing.HwHead :=
    fun r hr => seekahead_congr r dma.RxBdRing hr k _
  simp only [rx_service, rx_reprovision, hF, hk0, if_false, dma_t.emit, XAxiDma_BdRingFree,
    XAxiDma_BdRingAlloc, XAxiDma_BdRingToHw, h2, h3, h4, h6, h7, h8, hok, Nat.zero_add, hk1,
    ne_eq, not_true_eq_false, or_self, Nat.sub_self, rx_walk_eq_fold, hs]
  rw [rx_fold_log]
  refine ⟨by simp, trivial, ?_⟩
  unfold rx_ring_posted
  simp only [hs]
  refine ⟨h0, by omega, trivial, trivial, trivial, hlt, trivial, trivial, trivial⟩

theorem walk_congr (r1 r2 : XAxiDma_BdRing) (h : r1.AllCnt = r2.AllCnt) (n bd : Nat) :
    XAxiDma_BdRingWalk r1 n bd = XAxiDma_BdRingWalk r2 n bd := by
  induction n generalizing bd with
  | zero => rfl
  | succ n ih => simp [XAxiDma_BdRingWalk, XAxiDma_BdRingNext, h, ih]

theorem fromHw_frame (ring : XAxiDma_BdRing) (lim : Nat) :
    (XAxiDma_BdRingFromHw ring lim).2.1.AllCnt = ring.AllCnt ∧
    (XAxiDma_BdRingFromHw ring lim).2.1.Bds = ring.Bds ∧
    ((XAxiDma_BdRingFromHw ring lim).1 ≠ 0 →
      (XAxiDma_BdRingFromHw ring lim).2.2 = ring.HwHead) := by
  obtain ⟨k, _, hF⟩ := fromHw_spec ring lim
  rw [hF]
  by_cases h : k = 0
  · simp [h]
  · simp [h]

/-- One drain of the receive ring in its steady state, with the commit
refused: the ring operations and the ring the handler leaves. -/
theorem rx_service_steady_refused (hw : hw_t) (dma : dma_t)
    (hinv : rx_ring_posted dma.RxBdRing) (hno : hw.BdRingToHw ≠ XST_SUCCESS)
    (hk : (XAxiDma_BdRingFromHw dma.RxBdRing XAXIDMA_ALL_BDS).1 ≠ 0) :
    (rx_service hw dma).log = dma.log ++
      ([.BdRingFromHw .rx XAXIDMA_ALL_BDS
          (XAxiDma_BdRingFromHw dma.RxBdRing XAXIDMA_ALL_BDS).1 dma.RxBdRing.HwHead,
        .IntDisable .rx XAXIDMA_IRQ_ALL_MASK] ++
      (rx_fold ((XAxiDma_BdRingWalk (XAxiDma_BdRingFromHw dma.RxBdRing XAXIDMA_ALL_BDS).2.1
            (XAxiDma_BdRingFromHw dma.RxBdRing XAXIDMA_ALL_BDS).1
            (XAxiDma_BdRingFromHw dma.RxBdRing XAXIDMA_ALL_BDS).2.2).map
          (XAxiDma_BdRingFromHw dma.RxBdRing XAXIDMA_ALL_BDS).2.1.slot) ⟨NULL, 0, 0⟩ []).2 ++
      [.BdRingFree .rx (XAxiDma_BdRingFromHw dma.RxBdRing XAXIDMA_ALL_BDS).1
          dma.RxBdRing.HwHead XST_SUCCESS,
        .BdRingAlloc .rx (XAxiDma_BdRingFromHw dma.RxBdRing XAXIDMA_ALL_BDS).1
          dma.RxBdRing.HwHead XST_SUCCESS,
        .BdRingToHw .rx (XAxiDma_BdRingFromHw dma.RxBdRing XAXIDMA_ALL_BDS).1
          dma.RxBdRing.HwHead hw.BdRingToHw,
        .IntEnable .rx XAXIDMA_IRQ_ALL_MASK]) ∧
    (rx_service hw dma).RxBdRing.Bds = dma.RxBdRing.Bds ∧
    (rx_service hw dma).RxBdRing.PreCnt =
      (XAxiDma_BdRingFromHw dma.RxBdRing XAXIDMA_ALL_BDS).1 ∧
    (rx_service hw dma).RxBdRing.PreHead = dma.RxBdRing.HwHead ∧
    (rx_service hw dma).RxBdRing.HwCnt =
      dma.RxBdRing.AllCnt - (XAxiDma_BdRingFromHw dma.RxBdRing XAXIDMA_ALL_BDS).1 := by
  obtain ⟨h0, h1, h2, h3, h4, h5, h6, h7, h8⟩ := hinv
  obtain ⟨k, hle, hF⟩ := fromHw_spec dma.RxBdRing XAXIDMA_ALL_BDS
  have hk0 : k ≠ 0 := by
    intro h
    rw [hF, if_pos h] at hk
    exact hk rfl
  rw [if_neg hk0] at hF
  have hk1 : ¬ k < k := by omega
  have hs : ∀ r : XAxiDma_BdRing, r.AllCnt = dma.RxBdRing.AllCnt →
      XAxiDma_BdRingSeekahead r k dma.RxBdRing.HwHead =
        XAxiDma_BdRingSeekahead dma.RxBdRing k dma.RxBdRing.HwHead :=
    fun r hr => seekahead_congr r dma.RxBdRing hr k _
  simp only [rx_service, rx_reprovision, hF, hk0, if_false, dma_t.emit, XAxiDma_BdRingFree,
    XAxiDma_BdRingAlloc, XAxiDma_BdRingToHw, h1, h2, h3, h4, h6, h7, h8, hno, Nat.zero_add, hk1,
    ne_eq, not_true_eq_false, not_false_eq_true, or_self, if_true, Nat.sub_self,
    rx_walk_eq_fold, hs]
  rw [rx_fold_log]
  refine ⟨by simp, trivial, trivial, trivial, trivial⟩

/-- C6 (amended): in the steady state of the receive ring (every slot posted),
an invocation of `dma_rx_intr_handler` whose drain returns `k > 0` descriptors
frees and re-reserves exactly those `k` descriptors and hands them to one
commit before it returns: the reserve succeeds for `k` slots starting at the
first drained slot, and the commit is called once for the same `k` slots; the
drained descriptors are the `k` slots from there on in ring order; no
descriptor of the ring, and so no buffer address, is rewritten.  When the
commit is accepted the `k` descriptors are posted, and every slot is posted
again; when it is refused, its status is dropped and the `k` descriptors stay
reserved. -/
theorem rx_reprovision_same_slots (hw : hw_t) (ResetIsDone : Nat → Bool) (dma : dma_t)
    (k : Nat)
    (hinv : rx_ring_posted dma.RxBdRing) (hirq : rx_drains dma)
    (hk : (rx_drained dma).length = k) (hpos : 0 < k) :
    rx_events hw ResetIsDone dma =
      [.AckIrq .rx (XAxiDma_BdRingGetIrq dma.RxBdRing),
        .BdRingFromHw .rx XAXIDMA_ALL_BDS k dma.RxBdRing.HwHead,
        .IntDisable .rx XAXIDMA_IRQ_ALL_MASK] ++
      (rx_fold (rx_drained dma) ⟨NULL, 0, 0⟩ []).2 ++
      [.BdRingFree .rx k dma.RxBdRing.HwHead XST_SUCCESS,
        .BdRingAlloc .rx k dma.RxBdRing.HwHead XST_SUCCESS,
        .BdRingToHw .rx k dma.RxBdRing.HwHead hw.BdRingToHw,
        .IntEnable .rx XAXIDMA_IRQ_ALL_MASK] ∧
    rx_drained dma =
      (XAxiDma_BdRingWalk dma.RxBdRing k dma.RxBdRing.HwHead).map dma.RxBdRing.slot ∧
    (dma_rx_intr_handler hw ResetIsDone dma).RxBdRing.Bds = dma.RxBdRing.Bds ∧
    (if hw.BdRingToHw = XST_SUCCESS then
      rx_ring_posted (dma_rx_intr_handler hw ResetIsDone dma).RxBdRing
    else
      (dma_rx_intr_handler hw ResetIsDone dma).RxBdRing.PreCnt = k ∧
      (dma_rx_intr_handler hw ResetIsDone dma).RxBdRing.PreHead = dma.RxBdRing.HwHead ∧
      (dma_rx_intr_handler hw ResetIsDone dma).RxBdRing.HwCnt = dma.RxBdRing.AllCnt - k) := by
  obtain ⟨he, hd⟩ := hirq
  have ha := irq_all_of_drains _ hd
  have hlen := rx_drained_length dma
  have hk0 : (XAxiDma_BdRingFromHw (rx_acked dma).RxBdRing XAXIDMA_ALL_BDS).1 ≠ 0 := by
    omega
  have hinv' : rx_ring_posted (rx_acked dma).RxBdRing := hinv
  obtain ⟨f1, f2, f3⟩ := fromHw_frame (rx_acked dma).RxBdRing XAXIDMA_ALL_BDS
  have hh : (rx_acked dma).RxBdRing.HwHead = dma.RxBdRing.HwHead := rfl
  have hkk : (XAxiDma_BdRingFromHw (rx_acked dma).RxBdRing XAXIDMA_ALL_BDS).1 = k := by
    omega
  have hH : dma_rx_intr_handler hw ResetIsDone dma = rx_service hw (rx_acked dma) := by
    simp only [dma_rx_intr_handler, ha, he, hd, if_false, if_true, ne_eq,
      not_true_eq_false, not_false_eq_true]
  subst hkk
  have hw_walk : rx_drained dma =
      (XAxiDma_BdRingWalk dma.RxBdRing
        (XAxiDma_BdRingFromHw (rx_acked dma).RxBdRing XAXIDMA_ALL_BDS).1
        dma.RxBdRing.HwHead).map dma.RxBdRing.slot := by
    unfold rx_drained
    simp only [f3 hk0, hh]
    rw [walk_congr _ dma.RxBdRing (f1.trans rfl)]
    apply List.map_congr_left
    intro a _
    simp only [XAxiDma_BdRing.slot, f2]
    rfl
  by_cases hok : hw.BdRingToHw = XST_SUCCESS
  · obtain ⟨hl, hb, hp⟩ := rx_service_steady hw (rx_acked dma) hinv' hok hk0
    refine ⟨?_, hw_walk, ?_, ?_⟩
    · rw [rx_events, hH, hl, hh, hok]
      simp [rx_acked, dma_t.emit, rx_drained]
    · rw [hH, hb]; rfl
    · rw [if_pos hok, hH]; exact hp
  · obtain ⟨hl, hb, hp1, hp2, hp3⟩ :=
      rx_service_steady_refused hw (rx_acked dma) hinv' hok hk0
    refine ⟨?_, hw_walk, ?_, ?_⟩
    · rw [rx_events, hH, hl, hh]
      simp [rx_acked, dma_t.emit, rx_drained]
    · rw [hH, hb]; rfl
    · rw [if_neg hok, hH]
      exact ⟨hp1, hp2, hp3⟩

/-- The batch `[SOF, -, -, EOF]` drained from slot 2 of a ring of four posted
slots: the four slots are reserved and handed to the commit again from slot 2;
an accepted commit leaves every slot posted, a refused one leaves the four
slots reserved. -/
theorem rx_reprovision_same_slots_witness :
    rx_ring_posted (ex_rx_ring ex_packet 2 0x1000) ∧
    (rx_drained (ex_dma (ex_rx_ring ex_packet 2 0x1000) (ex_tx_ring 2 0))).length = 4 ∧
    Event.BdRingAlloc .rx 4 2 XST_SUCCESS ∈
      rx_events hw_ok never_done (ex_dma (ex_rx_ring ex_packet 2 0x1000) (ex_tx_ring 2 0)) ∧
    (dma_rx_intr_handler hw_ok never_done
      (ex_dma (ex_rx_ring ex_packet 2 0x1000) (ex_tx_ring 2 0))).RxBdRing.Bds = ex_packet ∧
    rx_ring_posted (dma_rx_intr_handler hw_ok never_done
      (ex_dma (ex_rx_ring ex_packet 2 0x1000) (ex_tx_ring 2 0))).RxBdRing ∧
    (dma_rx_intr_handler hw_commit_refused never_done
      (ex_dma (ex_rx_ring ex_packet 2 0x1000) (ex_tx_ring 2 0))).RxBdRing.PreCnt = 4 :=
  ⟨by decide, by decide,
   by
    rw [(rx_reprovision_same_slots hw_ok never_done
      (ex_dma (ex_rx_ring ex_packet 2 0x1000) (ex_tx_ring 2 0)) 4
      (by decide) (by decide) (by decide) (by decide)).1]
    decide,
   (rx_reprovision_same_slots hw_ok never_done
      (ex_dma (ex_rx_ring ex_packet 2 0x1000) (ex_tx_ring 2 0)) 4
      (by decide) (by decide) (by decide) (by decide)).2.2.1,
   by
    have h := (rx_reprovision_same_slots hw_ok never_done
      (ex_dma (ex_rx_ring ex_packet 2 0x1000) (ex_tx_ring 2 0)) 4
      (by decide) (by decide) (by decide) (by decide)).2.2.2
    rw [if_pos (by decide)] at h
    exact h,
   by
    have h := (rx_reprovision_same_slots hw_commit_refused never_done
      (ex_dma (ex_rx_ring ex_packet 2 0x1000) (ex_tx_ring 2 0)) 4
      (by decide) (by decide) (by decide) (by decide)).2.2.2
    rw [if_neg (by decide)] at h
    exact h.1⟩

/-- C6 (as stated) fails when the commit is not accepted: the handler drops the
statuses of the reserve and of the commit (`dma.c`, lines 262-263).  From the
steady state with two completed descriptors and a refused commit, the two
drained descriptors are reserved again but not committed: they stay reserved
and only the two other slots are posted.  At the next interrupt, with the two
remaining descriptors completed and a vendor layer that accepts every call, the
two drained descriptors are reserved again, but the ring refuses their commit,
since the earlier reservation is still ahead of them, and no slot is posted any
more. -/
theorem rx_reprovision_not_recommitted :
    rx_ring_posted (ex_rx_ring ex_half 0 0x1000) ∧
    (rx_drained (ex_dma (ex_rx_ring ex_half 0 0x1000) (ex_tx_ring 2 0))).length = 2 ∧
    rx_events hw_commit_refused never_done
        (ex_dma (ex_rx_ring ex_half 0 0x1000) (ex_tx_ring 2 0)) =
      [.AckIrq .rx 0x1000, .BdRingFromHw .rx XAXIDMA_ALL_BDS 2 0,
        .IntDisable .rx XAXIDMA_IRQ_ALL_MASK,
        .DCacheInvalidateRange 0x100000 100, .callback 0x100000 100,
        .DCacheInvalidateRange 0x100800 100, .callback 0x100800 100,
        .BdRingFree .rx 2 0 XST_SUCCESS, .BdRingAlloc .rx 2 0 XST_SUCCESS,
        .BdRingToHw .rx 2 0 XST_FAILURE, .IntEnable .rx XAXIDMA_IRQ_ALL_MASK] ∧
    (dma_rx_intr_handler hw_commit_refused never_done
      (ex_dma (ex_rx_ring ex_half 0 0x1000) (ex_tx_ring 2 0))).RxBdRing.PreCnt = 2 ∧
    (dma_rx_intr_handler hw_commit_refused never_done
      (ex_dma (ex_rx_ring ex_half 0 0x1000) (ex_tx_ring 2 0))).RxBdRing.HwCnt = 2 ∧
    ¬ rx_ring_posted ex_after_refusal.RxBdRing ∧
    rx_drains ex_after_refusal ∧
    (rx_drained ex_after_refusal).length = 2 ∧
    hw_ok.BdRingToHw = XST_SUCCESS ∧
    rx_events hw_ok never_done ex_after_refusal =
      [.AckIrq .rx 0x1000, .BdRingFromHw .rx XAXIDMA_ALL_BDS 2 2,
        .IntDisable .rx XAXIDMA_IRQ_ALL_MASK,
        .DCacheInvalidateRange 0x101000 100, .callback 0x101000 100,
        .DCacheInvalidateRange 0x101800 100, .callback 0x101800 100,
        .BdRingFree .rx 2 2 XST_SUCCESS, .BdRingAlloc .rx 2 2 XST_SUCCESS,
        .BdRingToHw .rx 2 2 XST_INVALID_PARAM, .IntEnable .rx XAXIDMA_IRQ_ALL_MASK] ∧
    (dma_rx_intr_handler hw_ok never_done ex_after_refusal).RxBdRing.PreCnt = 4 ∧
    (dma_rx_intr_handler hw_ok never_done ex_after_refusal).RxBdRing.HwCnt = 0 := by
  decide

/-! ## Initialisation of the receive ring -/

theorem seekahead_eq (ring : XAxiDma_BdRing) (n bd : Nat) (hb : bd < ring.AllCnt)
    (h : bd + n ≤ ring.AllCnt) :
    XAxiDma_BdRingSeekahead ring n bd = if bd + n = ring.AllCnt then 0 else bd + n := by
  induction n generalizing bd with
  | zero =>
    have : ¬ bd = ring.AllCnt := by omega
    simp [XAxiDma_BdRingSeekahead, this]
  | succ n ih =>
    simp only [XAxiDma_BdRingSeekahead, XAxiDma_BdRingNext]
    by_cases h1 : bd + 1 ≥ ring.AllCnt
    · have hn : n = 0 := by omega
      subst hn
      have : bd + (0 + 1) = ring.AllCnt := by omega
      simp [h1, XAxiDma_BdRingSeekahead, this]
    · rw [if_neg h1, ih (bd + 1) (by omega) (by omega)]
      have e : bd + 1 + n = bd + (n + 1) := by omega
      rw [e]

theorem setBufAddr_frame (hw : Int) (ring : XAxiDma_BdRing) (bd a : Nat) :
    ∃ bds, (XAxiDma_BdSetBufAddr hw ring bd a).2 = { ring with Bds := bds } := by
  unfold XAxiDma_BdSetBufAddr
  split
  · exact ⟨ring.Bds, rfl⟩
  · exact ⟨_, rfl⟩

theorem setLength_frame (ring : XAxiDma_BdRing) (bd len mask : Nat) :
    ∃ bds, (XAxiDma_BdSetLength ring bd len mask).2 = { ring with Bds := bds } := by
  unfold XAxiDma_BdSetLength
  split
  · exact ⟨ring.Bds, rfl⟩
  · exact ⟨_, rfl⟩

theorem rx_init_fill_frame (hw : hw_t) (params : dma_dev_t) (n i bd : Nat)
    (ring : XAxiDma_BdRing) :
    ∃ bds, (rx_init_fill hw params n i bd ring).2 = { ring with Bds := bds } := by
  induction n generalizing i bd ring with
  | zero => exact ⟨ring.Bds, rfl⟩
  | succ n ih =>
    rw [rx_init_fill]
    obtain ⟨b1, h1⟩ := setBufAddr_frame hw.BdSetBufAddr ring bd
      ((params.rx_buff_addr + (i * params.descriptor_buff_size) % 2 ^ 32) % 2 ^ 32)
    dsimp only
    split
    · exact ⟨b1, h1⟩
    · obtain ⟨b2, h2⟩ := setLength_frame
        (XAxiDma_BdSetBufAddr hw.BdSetBufAddr ring bd
          ((params.rx_buff_addr + (i * params.descriptor_buff_size) % 2 ^ 32) % 2 ^ 32)).2 bd
        params.descriptor_buff_size
        (XAxiDma_BdSetBufAddr hw.BdSetBufAddr ring bd
          ((params.rx_buff_addr + (i * params.descriptor_buff_size) % 2 ^ 32) % 2 ^ 32)).2.MaxTransferLen
      split
      · exact ⟨b2, by rw [h2, h1]⟩
      · obtain ⟨b3, h3⟩ := ih (i + 1)
          (XAxiDma_BdRingNext (XAxiDma_BdSetLength
            (XAxiDma_BdSetBufAddr hw.BdSetBufAddr ring bd
              ((params.rx_buff_addr + (i * params.descriptor_buff_size) % 2 ^ 32) % 2 ^ 32)).2 bd
            params.descriptor_buff_size
            (XAxiDma_BdSetBufAddr hw.BdSetBufAddr ring bd
              ((params.rx_buff_addr + (i * params.descriptor_buff_size) % 2 ^ 32) % 2 ^ 32)).2.MaxTransferLen).2
            bd)
          (XAxiDma_BdSetLength
            (XAxiDma_BdSetBufAddr hw.BdSetBufAddr ring bd
              ((params.rx_buff_addr + (i * params.descriptor_buff_size) % 2 ^ 32) % 2 ^ 32)).2 bd
            params.descriptor_buff_size
            (XAxiDma_BdSetBufAddr hw.BdSetBufAddr ring bd
              ((params.rx_buff_addr + (i * params.descriptor_buff_size) % 2 ^ 32) % 2 ^ 32)).2.MaxTransferLen).2
        exact ⟨b3, by rw [h3, h2, h1]⟩

theorem rx_init_provision_posts_all (hw : hw_t) (dma : dma_t)
    (hfresh : rx_ring_fresh dma.RxBdRing)
    (h : (rx_init_provision hw dma).1 = XST_SUCCESS) :
    rx_ring_posted (rx_init_provision hw dma).2.RxBdRing := by
  obtain ⟨g1, g2, g3, g4, g5, g6, g7, g8⟩ := hfresh
  by_cases hn : dma.RxBdRing.FreeCnt = 0
  · exfalso
    revert h
    have : XST_INVALID_PARAM ≠ XST_SUCCESS := by decide
    simp [rx_init_provision, XAxiDma_BdRingAlloc, hn, this]
  have hA : XAxiDma_BdRingAlloc dma.RxBdRing dma.RxBdRing.FreeCnt NULL =
      (XST_SUCCESS,
       { dma.RxBdRing with
          FreeHead := 0
          FreeCnt := 0
          PreCnt := dma.RxBdRing.AllCnt }, 0) := by
    have hs := seekahead_eq dma.RxBdRing dma.RxBdRing.AllCnt 0 (by omega) (by omega)
    simp only [Nat.zero_add, if_true] at hs
    have hn' : ¬ dma.RxBdRing.AllCnt = 0 := by omega
    simp [XAxiDma_BdRingAlloc, hn', g1, g2, g5, hs]
  obtain ⟨bds, hf⟩ := rx_init_fill_frame hw dma.params dma.RxBdRing.FreeCnt 0 0
    { dma.RxBdRing with FreeHead := 0, FreeCnt := 0, PreCnt := dma.RxBdRing.AllCnt }
  revert h
  simp only [rx_init_provision, hA, dma_t.emit, ne_eq, not_true_eq_false, if_false]
  by_cases hfs : (rx_init_fill hw dma.params dma.RxBdRing.FreeCnt 0 0
      { dma.RxBdRing with FreeHead := 0, FreeCnt := 0, PreCnt := dma.RxBdRing.AllCnt }).1 =
      XST_SUCCESS
  swap
  · simp only [hfs, not_false_eq_true, if_true]
    intro h
    exact h.elim
  simp only [hfs, not_true_eq_false, if_false, hf]
  have hs := seekahead_eq dma.RxBdRing dma.RxBdRing.AllCnt 0 (by omega) (by omega)
  simp only [Nat.zero_add, if_true] at hs
  have hs' : ∀ r : XAxiDma_BdRing, r.AllCnt = dma.RxBdRing.AllCnt →
      XAxiDma_BdRingSeekahead r dma.RxBdRing.AllCnt 0 = 0 :=
    fun r hr => (seekahead_congr r dma.RxBdRing hr _ _).trans hs
  have hn' : ¬ dma.RxBdRing.AllCnt = 0 := by omega
  by_cases ht : hw.BdRingToHw = XST_SUCCESS
  · simp only [XAxiDma_BdRingToHw, g1, g6, hn', ht, if_false, Nat.lt_irrefl, ne_eq,
      not_true_eq_false, or_self, hs', Nat.sub_self]
    intro _
    unfold rx_ring_posted
    simp only [g3, g4, g7, g8, Nat.zero_add]
    exact ⟨by omega, trivial, trivial, trivial, trivial, by omega, trivial, trivial, trivial⟩
  · simp only [XAxiDma_BdRingToHw, g1, g6, hn', ht, if_false, Nat.lt_irrefl, ne_eq,
      not_true_eq_false, not_false_eq_true, or_self, if_true]
    intro h
    exact h.elim

/-- A successful `dma_rx_init` leaves the receive ring in its steady state:
every slot posted. -/
theorem rx_init_posts_all (hw : hw_t) (dma : dma_t)
    (h : (dma_rx_init hw dma).1 = XST_SUCCESS) :
    rx_ring_posted (dma_rx_init hw dma).2.RxBdRing := by
  revert h
  simp only [dma_rx_init, dma_t.emit, XAxiDma_BdRingCreate, XAxiDma_BdRingClone]
  by_cases hc : hw.BdRingCreate = XST_SUCCESS
  swap
  · simp only [hc, ne_eq, not_false_eq_true, if_true]
    intro h
    exact h.elim
  by_cases hk : hw.BdRingClone = XST_SUCCESS
  swap
  · simp only [hc, hk, ne_eq, not_false_eq_true, not_true_eq_false, if_true, if_false]
    intro h
    exact h.elim
  simp only [hc, hk, ne_eq, not_true_eq_false, if_false]
  intro h
  exact rx_init_provision_posts_all hw _ ⟨rfl, rfl, rfl, rfl, rfl, rfl, rfl, rfl⟩ h

/-- The buffer addresses of the provisioning loop wrap at `2 ^ 32`: three
buffers of 2048 bytes from `0xFFFFF800` on are at `0xFFFFF800`, `0x0` and
`0x800`. -/
theorem rx_init_fill_wraps :
    (rx_init_fill hw_ok
      { descriptor_buff_size := 2048, descriptors_count := 3, rx_buff_addr := 0xFFFFF800,
        tx_buff_addr := 0x900000 } 3 0 0
      (ex_rx_ring [⟨0, 0, 0, 0⟩, ⟨0, 0, 0, 0⟩, ⟨0, 0, 0, 0⟩] 0 0)).2.Bds.map
        XAxiDma_Bd.BufAddr = [0xFFFFF800, 0x0, 0x800] := by
  decide

end Dma
